import Mathlib

/-!
# SpectralFLIM helpers: a verification development

Shallow embedding of the two line-protocol helpers of the repository,
`src/th260_helper.cpp` (TimeHarp 260 counting module) and
`src/stage_helper.cpp` (two-axis piezo stage), with the properties of the
base64 encoder, the index-to-DAC mapper, the open/close life cycle and the
command loops.

Conventions of the embedding

* `int` values are `Int`; where a C++ conversion or operation can leave the
  range of its type the result is reduced explicitly (`wrap32`, `toShort`,
  `toSize`), as the x64 MSVC target of both files does.
* `uint8_t` is `Byte = Fin 256`; `uint32_t` counters are `Nat` reduced on
  store; `std::string` is `String`.
* The vendor libraries are oracles: every call is appended to a trace and
  its return value (and whatever it writes through a pointer) is a function
  of the calls made before it and of the call itself.
* A thrown `std::exception` is the outcome `Res.exc` carrying `what()` and
  the globals at the throw.
-/

namespace SpectralFLIM

/-! ## Part 1. `b64` (th260_helper.cpp, lines 21-29) -/

/-- A `uint8_t`. -/
abbrev Byte := Fin 256

/-- The table `B64` of th260_helper.cpp line 21. -/
def B64 : List Char :=
  "ABCDEFGHIJKLMNOPQRSTUVWXYZabcdefghijklmnopqrstuvwxyz0123456789+/".toList

/-- The pad character pushed when a group is short. -/
def padChar : Char := Char.ofNat 61

/-- The read `B64[k]`; the index is always masked with `&63` in the source. -/
def B64at (k : Nat) : Char := B64.getD k (Char.ofNat 0)

/-- The read `p[i]`, promoted to `int` as in the source expression. -/
def byteAt (p : List Byte) (i : Nat) : Nat := (p.getD i 0).val

/-- The value `v` of line 25:
`p[i]<<16 | ((i+1<n)?p[i+1]<<8:0) | ((i+2<n)?p[i+2]:0)`. -/
def b64_word (p : List Byte) (n i : Nat) : Nat :=
  ((byteAt p i) <<< 16 ||| (if i + 1 < n then (byteAt p (i + 1)) <<< 8 else 0))
    ||| (if i + 2 < n then byteAt p (i + 2) else 0)

/-- The four `push_back`s of lines 26-27 for the group that starts at `i`. -/
def b64_group (p : List Byte) (n i : Nat) : List Char :=
  let v := b64_word p n i
  [ B64at ((v >>> 18) &&& 63),
    B64at ((v >>> 12) &&& 63),
    if i + 1 < n then B64at ((v >>> 6) &&& 63) else padChar,
    if i + 2 < n then B64at (v &&& 63) else padChar ]

/-- The loop `for(size_t i=0;i<n;i+=3)` of lines 24-28, entered at index `i`
with the output string holding `o`. -/
def b64_loop (p : List Byte) (n : Nat) (i : Nat) (o : List Char) : List Char :=
  if i < n then b64_loop p n (i + 3) (o ++ b64_group p n i) else o
termination_by n - i

/-- The function `b64(p, n)`; the buffer `p` holds exactly `n` bytes, as at the
only call site (`raw.data(), raw.size()`). -/
def b64 (p : List Byte) : String := String.mk (b64_loop p p.length 0 [])

/-! ### The decoder

The repository only encodes.  The decoder below is the standard one of
RFC 4648 section 4 for this alphabet, written out so that the round trip can
be stated. -/

/-- The byte `x mod 256`. -/
def toByte (x : Nat) : Byte := ⟨x % 256, Nat.mod_lt _ (by decide)⟩

/-- Modelled from the spec: the decoder is not part of the repository ("the
device side only encodes"); the value of a symbol is its position in the
64-symbol alphabet, and the pad symbol has none. -/
def b64val (c : Char) : Option Nat :=
  if B64.indexOf c < 64 then some (B64.indexOf c) else none

/-- Modelled from the spec: the 24-bit word of four 6-bit values. -/
def sextets (s0 s1 s2 s3 : Nat) : Nat :=
  ((s0 <<< 18 ||| s1 <<< 12) ||| s2 <<< 6) ||| s3

/-- Modelled from the spec: the standard base64 decoder ("decoding is the
exact inverse"), absent from the repository.  Groups of four symbols give
three bytes; a last group ending in one pad gives two bytes and one ending in
two pads gives one byte; anything else is rejected. -/
def b64decodeChars : List Char → Option (List Byte)
  | [] => some []
  | c0 :: c1 :: c2 :: c3 :: rest =>
    match b64val c0, b64val c1 with
    | some s0, some s1 =>
      if c3 = padChar then
        if rest = [] then
          if c2 = padChar then
            some [toByte (sextets s0 s1 0 0 >>> 16)]
          else
            match b64val c2 with
            | some s2 =>
              some [toByte (sextets s0 s1 s2 0 >>> 16), toByte (sextets s0 s1 s2 0 >>> 8)]
            | none => none
        else none
      else
        match b64val c2, b64val c3, b64decodeChars rest with
        | some s2, some s3, some bs =>
          some (toByte (sextets s0 s1 s2 s3 >>> 16) :: toByte (sextets s0 s1 s2 s3 >>> 8)
            :: toByte (sextets s0 s1 s2 s3) :: bs)
        | _, _, _ => none
    | _, _ => none
  | _ => none

/-- Modelled from the spec: `decode(text)`, the decoder on strings. -/
def b64decode (t : String) : Option (List Byte) := b64decodeChars t.data

/-! ### The encoder, group by group -/

/-- The output of `b64` described by recursion on the input: one group of four
characters per three bytes.  It is proved equal to the loop in
`b64_loop_append`. -/
def encGroups : List Byte → List Char
  | [] => []
  | [a] => b64_group [a] 1 0
  | [a, b] => b64_group [a, b] 2 0
  | a :: b :: c :: rest => b64_group [a, b, c] 3 0 ++ encGroups rest

/-- Number of pad characters after `n` input bytes: 0, 2, 1 for `n mod 3` equal
to 0, 1, 2. -/
def padCount (n : Nat) : Nat := if n % 3 = 0 then 0 else if n % 3 = 1 then 2 else 1

/-! ## Part 2. Machine integers, outcomes and the input stream -/

/-- The value of an `int` computation whose exact result is `x`: reduced into
`[-2^31, 2^31)` modulo `2^32`, as the x64 target does on overflow. -/
def wrap32 (x : Int) : Int := (x + 2147483648) % 4294967296 - 2147483648

/-- The conversion `short(x)` / `(short)x` of an `int`: reduced into
`[-32768, 32767]` modulo `2^16`. -/
def toShort (x : Int) : Int := (x + 32768) % 65536 - 32768

/-- An `int` value. -/
def IsInt32 (x : Int) : Prop := -2147483648 ≤ x ∧ x ≤ 2147483647

instance (x : Int) : Decidable (IsInt32 x) := by unfold IsInt32; infer_instance

/-- Outcome of a call of one of the helpers' functions on the globals `σ`. -/
inductive Res (σ : Type) where
  /-- The function returned. -/
  | ok (s : σ)
  /-- The function threw a `std::exception` with this `what()`. -/
  | exc (what : String) (s : σ)
  /-- The completion poll did not finish within the polls allowed. -/
  | hang
deriving DecidableEq, Repr

/-- Outcome of one pass through the body of the `while(std::getline(...))` loop
of `main`. -/
inductive Flow (σ : Type) where
  /-- The body reached `std::cout.flush()`; the loop reads the next line. -/
  | next (s : σ)
  /-- The body executed `break`. -/
  | stop (s : σ)
  /-- An exception left the body, and with it the loop: the `try` encloses the
  whole `while`. -/
  | exc (what : String) (s : σ)
  /-- The body read a local variable that was never written (`int vx,vy;`
  with nothing extracted): no behaviour is defined. -/
  | undef
  /-- The completion poll did not finish within the polls allowed. -/
  | hang
deriving DecidableEq, Repr

/-- Outcome of `main`: the globals at `return 0` (standard output among them)
and the input lines that were never read. -/
inductive Run (σ : Type) where
  | done (s : σ) (unread : List String)
  | undef
  | hang
deriving DecidableEq, Repr

/-- The classification `isspace` of the "C" locale, which `operator>>` uses to
skip and to delimit: space, `\t`, `\n`, `\v`, `\f`, `\r`. -/
def isspace (c : Char) : Bool :=
  decide (c.toNat = 32) || (decide (9 ≤ c.toNat) && decide (c.toNat ≤ 13))

/-- The `std::istringstream iss(line)`: unread characters and the two state
bits that extraction looks at. -/
structure IStream where
  buf : List Char
  eofbit : Bool
  failbit : Bool
deriving DecidableEq, Repr

namespace IStream

/-- The stream `std::istringstream iss(line)` before any extraction. -/
def ofLine (line : String) : IStream := { buf := line.data, eofbit := false, failbit := false }

/-- The `sentry` of a formatted extraction: fails (setting `failbit`) when the
stream is not good, otherwise skips white space and fails (setting `eofbit` and
`failbit`) when nothing is left. -/
def sentry (s : IStream) : Bool × IStream :=
  if s.eofbit || s.failbit then (false, { s with failbit := true })
  else
    let rest := s.buf.dropWhile isspace
    if rest.isEmpty then (false, { buf := [], eofbit := true, failbit := true })
    else (true, { s with buf := rest })

/-- The extraction `iss >> str` for a `std::string`: the stream afterwards and
the string stored, or `none` when the sentry failed and the string was left as
it was. -/
def getString (s : IStream) : IStream × Option String :=
  match s.sentry with
  | (false, s1) => (s1, none)
  | (true, s1) =>
    let rest := s1.buf.dropWhile (fun c => !isspace c)
    ({ buf := rest, eofbit := rest.isEmpty, failbit := false },
      some (String.mk (s1.buf.takeWhile (fun c => !isspace c))))

/-- The decimal value of a run of digits. -/
def digitsVal (ds : List Char) : Int :=
  ds.foldl (fun acc c => acc * 10 + ((c.toNat : Int) - 48)) 0

/-- The extraction `iss >> x` for an `int` (decimal, "C" locale): the stream
afterwards and the value stored, or `none` when the sentry failed and the
variable was left as it was.  An optional sign and a run of digits are
consumed; without a digit `0` is stored and `failbit` set; a value outside
`int` stores the nearest bound and sets `failbit`; reaching the end of the line
sets `eofbit`. -/
def getInt (s : IStream) : IStream × Option Int :=
  match s.sentry with
  | (false, s1) => (s1, none)
  | (true, s1) =>
    let neg := s1.buf.head?.map Char.toNat = some 45
    let signed := neg || (s1.buf.head?.map Char.toNat = some 43)
    let b1 := if signed then s1.buf.drop 1 else s1.buf
    let ds := b1.takeWhile Char.isDigit
    let rest := b1.dropWhile Char.isDigit
    if ds.isEmpty then ({ buf := rest, eofbit := rest.isEmpty, failbit := true }, some 0)
    else
      let v := if neg then - digitsVal ds else digitsVal ds
      if v > 2147483647 then
        ({ buf := rest, eofbit := rest.isEmpty, failbit := true }, some 2147483647)
      else if v < -2147483648 then
        ({ buf := rest, eofbit := rest.isEmpty, failbit := true }, some (-2147483648))
      else ({ buf := rest, eofbit := rest.isEmpty, failbit := false }, some v)

end IStream

/-! ## Part 3. stage_helper.cpp -/

/-- Calls into the Thorlabs Kinesis library, with their arguments. -/
inductive KCall where
  | TLI_BuildDeviceList
  | PCC_Open (serial : String)
  | PCC_StartPolling (serial : String) (ms : Int)
  | PCC_Enable (serial : String)
  | PCC_SetMaxOutputVoltage (serial : String) (v : Int)
  | PCC_SetOutputVoltage (serial : String) (v : Int)
  | PCC_StopPolling (serial : String)
  | PCC_Disable (serial : String)
  | PCC_Close (serial : String)
deriving DecidableEq, Repr

/-- The Kinesis library as the helper sees it.  Only the value of `PCC_Open`
is ever looked at; it may depend on the calls made before. -/
structure Kinesis where
  PCC_Open : List KCall → String → Int

/-- The file-scope variables of stage_helper.cpp (lines 13-14), the calls made
into the library so far, and what has been written to `std::cout`. -/
structure Stage where
  SX : String
  SY : String
  g_open : Bool
  calls : List KCall
  out : String
deriving DecidableEq, Repr

namespace Stage

/-- The state at the start of `main`: `SX`, `SY` zeroed, `g_open=false`. -/
def init : Stage := { SX := "", SY := "", g_open := false, calls := [], out := "" }

/-- A call into the library whose result is ignored. -/
def call (s : Stage) (c : KCall) : Stage := { s with calls := s.calls ++ [c] }

/-- The insertion `std::cout << text`. -/
def print (s : Stage) (text : String) : Stage := { s with out := s.out ++ text }

end Stage

/-- The copy `strncpy_s(SX, sx, 15)` into a `char[16]`: at most 15 characters. -/
def strncpy15 (src : String) : String := String.mk (src.data.take 15)

/-- The function `stage_open` (lines 18-28). -/
def stage_open (drv : Kinesis) (sx sy : String) (vmax_tenths : Int) (s : Stage) : Res Stage :=
  let s := s.call .TLI_BuildDeviceList
  let s := { s with SX := strncpy15 sx, SY := strncpy15 sy }
  let rx := drv.PCC_Open s.calls s.SX
  let s := s.call (.PCC_Open s.SX)
  if rx ≤ 0 then .exc "PCC_Open X" s
  else
    let ry := drv.PCC_Open s.calls s.SY
    let s := s.call (.PCC_Open s.SY)
    if ry ≤ 0 then .exc "PCC_Open Y" s
    else
      let s := (s.call (.PCC_StartPolling s.SX 200)).call (.PCC_StartPolling s.SY 200)
      let s := (s.call (.PCC_Enable s.SX)).call (.PCC_Enable s.SY)
      let s := s.call (.PCC_SetMaxOutputVoltage s.SX vmax_tenths)
      let s := s.call (.PCC_SetMaxOutputVoltage s.SY vmax_tenths)
      .ok { s with g_open := true }

/-- The function `setdac(short vx, short vy)` (lines 30-34); the arguments are
already `short` values. -/
def setdac (vx vy : Int) (s : Stage) : Res Stage :=
  if !s.g_open then .exc "not_open" s
  else .ok ((s.call (.PCC_SetOutputVoltage s.SX vx)).call (.PCC_SetOutputVoltage s.SY vy))

/-- The expression `short((w>1)? (ix*32767/(w-1)) : 0)` of lines 39-40: an
`int` product, a truncating division, and the conversion to `short`.
(`w-1` cannot leave `int` when `w>1`.) -/
def mapAxis (ix w : Int) : Int :=
  toShort (if w > 1 then Int.tdiv (wrap32 (ix * 32767)) (w - 1) else 0)

/-- The function `move_ix` (lines 36-42). -/
def move_ix (ix iy w h : Int) (s : Stage) : Res Stage :=
  if !s.g_open then .exc "not_open" s
  else setdac (mapAxis ix w) (mapAxis iy h) s

/-- The function `stage_close` (lines 44-50). -/
def stage_close (s : Stage) : Res Stage :=
  if !s.g_open then .ok s
  else
    let s := (s.call (.PCC_StopPolling s.SX)).call (.PCC_StopPolling s.SY)
    let s := (s.call (.PCC_Disable s.SX)).call (.PCC_Disable s.SY)
    let s := (s.call (.PCC_Close s.SX)).call (.PCC_Close s.SY)
    .ok { s with g_open := false }

/-- Turns the outcome of a command's function into the outcome of the loop
body: on return the body prints `OK` and goes on, an exception leaves it. -/
def Res.thenOK {σ : Type} (print : σ → String → σ) : Res σ → Flow σ
  | .ok s => .next (print s "OK\n")
  | .exc what s => .exc what s
  | .hang => .hang

/-- The `if`/`else if` chain of lines 60-65 of stage_helper.cpp, once `cmd` has
been extracted from `iss`. -/
def stage_command (drv : Kinesis) (cmd : String) (iss : IStream) (s : Stage) : Flow Stage :=
  if cmd = "exit" ∨ cmd = "quit" then .stop (s.print "OK bye\n")
  else if cmd = "open" then
    let r1 := iss.getString
    let r2 := r1.1.getString
    let r3 := r2.1.getInt
    (stage_open drv (r1.2.getD "") (r2.2.getD "") (r3.2.getD 750) s).thenOK Stage.print
  else if cmd = "setdac" then
    let r1 := iss.getInt
    let r2 := r1.1.getInt
    match r1.2, r2.2 with
    | some vx, some vy => (setdac (toShort vx) (toShort vy) s).thenOK Stage.print
    | _, _ => .undef
  else if cmd = "move_ix" then
    let r1 := iss.getInt
    let r2 := r1.1.getInt
    let r3 := r2.1.getInt
    let r4 := r3.1.getInt
    match r1.2, r2.2, r3.2, r4.2 with
    | some ix, some iy, some w, some h => (move_ix ix iy w h s).thenOK Stage.print
    | _, _, _, _ => .undef
  else if cmd = "disable" then (stage_close s).thenOK Stage.print
  else .next (s.print "ERR unknown_cmd\n")

/-- The command token of a line: `iss>>cmd` on a fresh stream (line 59). -/
def commandOf (line : String) : String := ((IStream.ofLine line).getString.2).getD ""

/-- The body of the read loop of stage_helper.cpp for a non-empty line
(lines 59-66). -/
def stage_line (drv : Kinesis) (line : String) (s : Stage) : Flow Stage :=
  stage_command drv (commandOf line) (IStream.ofLine line).getString.1 s

/-- The read loop of stage_helper.cpp with its `try`/`catch` (lines 56-68):
the lines still to come on standard input and the state; the result has the
lines that were never read. -/
def stage_loop (drv : Kinesis) : List String → Stage → Run Stage
  | [], s => .done s []
  | line :: rest, s =>
    if line = "" then stage_loop drv rest s
    else
      match stage_line drv line s with
      | .next s1 => stage_loop drv rest s1
      | .stop s1 => .done s1 rest
      | .exc what s1 => .done (s1.print ("ERR " ++ what ++ "\n")) rest
      | .undef => .undef
      | .hang => .hang

/-- The function `main` of stage_helper.cpp on the given input lines. -/
def stage_main (drv : Kinesis) (input : List String) : Run Stage :=
  match stage_loop drv input (Stage.init.print "OK ready\n") with
  | .done s unread =>
    match stage_close s with
    | .ok s1 => .done s1 unread
    | .exc _ s1 => .done s1 unread
    | .hang => .hang
  | .undef => .undef
  | .hang => .hang

/-! ## Part 4. th260_helper.cpp -/

/-- Calls into the TimeHarp 260 library (and `Sleep`), with the arguments
passed by value. -/
inductive TCall where
  | CloseDevice (i : Int)
  | OpenDevice (i : Int)
  | Initialize (dev mode : Int)
  | GetHardwareInfo (dev : Int)
  | GetNumOfInputChannels (dev : Int)
  | SetSyncDiv (dev div : Int)
  | SetSyncCFD (dev level zerocross : Int)
  | SetInputCFD (dev ch level zerocross : Int)
  | SetSyncEdgeTrg (dev level edge : Int)
  | SetInputEdgeTrg (dev ch level edge : Int)
  | SetSyncChannelOffset (dev value : Int)
  | SetInputChannelOffset (dev ch value : Int)
  | SetHistoLen (dev lencode : Int)
  | SetBinning (dev binning : Int)
  | SetOffset (dev offset : Int)
  | GetResolution (dev : Int)
  | ClearHistMem (dev : Int)
  | StartMeas (dev tacq : Int)
  | CTCStatus (dev : Int)
  | StopMeas (dev : Int)
  | GetHistogram (dev ch clear : Int)
  | GetErrorString (rc : Int)
  | Sleep (ms : Int)
deriving DecidableEq, Repr

/-- The TimeHarp library as the helper sees it.  The three constants come from
`th260defin.h`, which is not part of the repository, and are parameters.  Every
answer may depend on the calls made before (`past`) and on the call. -/
structure TH260Lib where
  /-- The constant `MAXDEVNUM`. -/
  MAXDEVNUM : Nat
  /-- The constant `MODE_HIST`. -/
  MODE_HIST : Int
  /-- The constant `MAXLENCODE`. -/
  MAXLENCODE : Int
  /-- The return code of a call. -/
  ret : (past : List TCall) → TCall → Int
  /-- The value a call leaves in the `int` its pointer argument points to,
  given the value that was there. -/
  intOut : (past : List TCall) → TCall → Int → Int
  /-- The text a call writes into its `char` buffer (`model`, `err`). -/
  strOut : (past : List TCall) → TCall → String
  /-- The resolution `TH260_GetResolution` stores, as the text that
  `std::fixed<<std::setprecision(1)` prints for it, given the one there. -/
  resOut : (past : List TCall) → String → String
  /-- The counter `TH260_GetHistogram` writes into bin `j` of the buffer. -/
  histOut : (past : List TCall) → TCall → (j : Nat) → Nat

/-- The file-scope variables of th260_helper.cpp (lines 17-19), the calls made
so far, and what has been written to `std::cout`.  The `double g_res` is kept
as the text `info` prints for it. -/
structure TH260 where
  g_dev : Int
  g_ch : Int
  g_len : Int
  g_res : String
  g_hist : List (List Nat)
  calls : List TCall
  out : String
deriving DecidableEq, Repr

namespace TH260

/-- The state at the start of `main`. -/
def init : TH260 :=
  { g_dev := -1, g_ch := 0, g_len := 0, g_res := "0.0", g_hist := [], calls := [], out := "" }

/-- Appends a call to the trace. -/
def call (s : TH260) (c : TCall) : TH260 := { s with calls := s.calls ++ [c] }

/-- The insertion `std::cout << text`. -/
def print (s : TH260) (text : String) : TH260 := { s with out := s.out ++ text }

end TH260

/-- The function `pq_throw` (lines 30-33): asks the library for the text of
`rc` and throws `what rc (text)`. -/
def pq_throw (lib : TH260Lib) (what : String) (rc : Int) (s : TH260) : Res TH260 :=
  .exc (what ++ " " ++ toString rc ++ " (" ++ lib.strOut s.calls (.GetErrorString rc) ++ ")")
    (s.call (.GetErrorString rc))

/-- The loop `for(int i=0;i<MAXDEVNUM;i++) TH260_CloseDevice(i)` of line 34,
with `n` iterations left from index `i`. -/
def closeAll : (n : Nat) → (i : Int) → TH260 → TH260
  | 0, _, s => s
  | n + 1, i, s => closeAll n (i + 1) (s.call (.CloseDevice i))

/-- The function `th260_close` (line 34). -/
def th260_close (lib : TH260Lib) (s : TH260) : Res TH260 :=
  if s.g_dev ≥ 0 then .ok { (closeAll lib.MAXDEVNUM 0 s) with g_dev := -1 } else .ok s

/-- The loop of line 39: the first index whose `TH260_OpenDevice` returns 0
becomes `g_dev`; `n` iterations left from index `i`. -/
def openFirst (lib : TH260Lib) : (n : Nat) → (i : Int) → TH260 → TH260
  | 0, _, s => s
  | n + 1, i, s =>
    if lib.ret s.calls (.OpenDevice i) = 0 then { (s.call (.OpenDevice i)) with g_dev := i }
    else openFirst lib n (i + 1) (s.call (.OpenDevice i))

/-- The statement `if(int rc=CALL; rc<0) pq_throw(what, rc);` followed by the
rest `k` of the function. -/
def checked (lib : TH260Lib) (what : String) (c : TCall) (s : TH260)
    (k : TH260 → Res TH260) : Res TH260 :=
  if lib.ret s.calls c < 0 then pq_throw lib what (lib.ret s.calls c) (s.call c)
  else k (s.call c)

/-- A loop `for(int ch=0; ch<g_ch; ++ch) if(int rc=CALL(ch); rc<0) pq_throw(..)`
with `n` iterations left from channel `ch`. -/
def forChannels (lib : TH260Lib) (what : String) (mk : Int → TCall) :
    (n : Nat) → (ch : Int) → TH260 → Res TH260
  | 0, _, s => .ok s
  | n + 1, ch, s =>
    if lib.ret s.calls (mk ch) < 0 then pq_throw lib what (lib.ret s.calls (mk ch)) (s.call (mk ch))
    else forChannels lib what mk n (ch + 1) (s.call (mk ch))

/-- Sequencing: the rest `k` runs when the first part returned. -/
def Res.andThen {σ : Type} (r : Res σ) (k : σ → Res σ) : Res σ :=
  match r with
  | .ok s => k s
  | .exc what s => .exc what s
  | .hang => .hang

/-- The what() of the `std::length_error` that `std::vector` throws on the
MSVC runtime when asked for more than `max_size()` elements, which is what a
negative `int` converted to `size_t` asks for. -/
def vectorTooLong : String := "vector too long"

/-- Lines 55-63 of `th260_init`: channel offsets, histogram length, binning,
offset, resolution, allocation of `g_hist`, settle delay. -/
def th260_init_tail (lib : TH260Lib) (binning offset_ps sync_offset_ps : Int) (s : TH260) :
    Res TH260 :=
  checked lib "SetSyncChannelOffset" (.SetSyncChannelOffset s.g_dev sync_offset_ps) s fun s =>
  (forChannels lib "SetInputChannelOffset" (fun ch => .SetInputChannelOffset s.g_dev ch 0)
    s.g_ch.toNat 0 s).andThen fun s =>
  let c := TCall.SetHistoLen s.g_dev lib.MAXLENCODE
  let s1 := { s with g_len := lib.intOut s.calls c s.g_len }
  checked lib "SetHistoLen" c s1 fun s =>
  checked lib "SetBinning" (.SetBinning s.g_dev binning) s fun s =>
  checked lib "SetOffset" (.SetOffset s.g_dev offset_ps) s fun s =>
  let c := TCall.GetResolution s.g_dev
  let s1 := { s with g_res := lib.resOut s.calls s.g_res }
  checked lib "GetResolution" c s1 fun s =>
  if s.g_len < 0 ∨ s.g_ch < 0 then .exc vectorTooLong s
  else
    .ok (TH260.call
      { s with g_hist := List.replicate s.g_ch.toNat (List.replicate s.g_len.toNat 0) }
      (.Sleep 150))

/-- Lines 41-63 of `th260_init`, entered once a device has been opened. -/
def th260_init_body (lib : TH260Lib) (binning offset_ps sync_div sync_offset_ps : Int)
    (s : TH260) : Res TH260 :=
  checked lib "Initialize" (.Initialize s.g_dev lib.MODE_HIST) s fun s =>
  let c := TCall.GetHardwareInfo s.g_dev
  let model := lib.strOut s.calls c
  checked lib "GetHardwareInfo" c s fun s =>
  let c := TCall.GetNumOfInputChannels s.g_dev
  let s1 := { s with g_ch := lib.intOut s.calls c s.g_ch }
  checked lib "GetNumChannels" c s1 fun s =>
  checked lib "SetSyncDiv" (.SetSyncDiv s.g_dev sync_div) s fun s =>
  if model = "TimeHarp 260 P" then
    checked lib "SetSyncCFD" (.SetSyncCFD s.g_dev (-100) (-10)) s fun s =>
    (forChannels lib "SetInputCFD" (fun ch => .SetInputCFD s.g_dev ch (-100) (-10))
      s.g_ch.toNat 0 s).andThen fun s =>
    th260_init_tail lib binning offset_ps sync_offset_ps s
  else
    checked lib "SetSyncEdgeTrg" (.SetSyncEdgeTrg s.g_dev (-50) 0) s fun s =>
    (forChannels lib "SetInputEdgeTrg" (fun ch => .SetInputEdgeTrg s.g_dev ch (-50) 0)
      s.g_ch.toNat 0 s).andThen fun s =>
    th260_init_tail lib binning offset_ps sync_offset_ps s

/-- The function `th260_init` (lines 36-64). -/
def th260_init (lib : TH260Lib) (binning offset_ps sync_div sync_offset_ps : Int)
    (s : TH260) : Res TH260 :=
  (th260_close lib s).andThen fun s =>
  let s := openFirst lib lib.MAXDEVNUM 0 s
  if s.g_dev < 0 then .exc "no TH260" s
  else th260_init_body lib binning offset_ps sync_div sync_offset_ps s

/-- The `do { ... } while(!ctc)` of line 69, allowed `fuel` polls. -/
def pollCTC (lib : TH260Lib) : (fuel : Nat) → TH260 → Res TH260
  | 0, _ => .hang
  | fuel + 1, s =>
    let c := TCall.CTCStatus s.g_dev
    let ctc := lib.intOut s.calls c 0
    if lib.ret s.calls c < 0 then pq_throw lib "CTCStatus" (lib.ret s.calls c) (s.call c)
    else if ctc = 0 then pollCTC lib fuel ((s.call c).call (.Sleep 10))
    else .ok (s.call c)

/-- The read-out loop of line 71: `TH260_GetHistogram` fills the buffer
`g_hist[ch]`, a `uint32_t` per bin; `n` iterations left from channel `ch`. -/
def readHist (lib : TH260Lib) : (n : Nat) → (ch : Nat) → TH260 → Res TH260
  | 0, _, s => .ok s
  | n + 1, ch, s =>
    let c := TCall.GetHistogram s.g_dev ch 1
    let row := (List.range (s.g_hist.getD ch []).length).map fun j =>
      lib.histOut s.calls c j % 4294967296
    let s1 := { s with g_hist := s.g_hist.set ch row }
    if lib.ret s.calls c < 0 then pq_throw lib "GetHistogram" (lib.ret s.calls c) (s1.call c)
    else readHist lib n (ch + 1) (s1.call c)

/-- The function `th260_acquire` (lines 66-72), allowed `fuel` polls. -/
def th260_acquire (lib : TH260Lib) (fuel : Nat) (tacq_ms : Int) (s : TH260) : Res TH260 :=
  checked lib "ClearHistMem" (.ClearHistMem s.g_dev) s fun s =>
  checked lib "StartMeas" (.StartMeas s.g_dev tacq_ms) s fun s =>
  (pollCTC lib fuel s).andThen fun s =>
  checked lib "StopMeas" (.StopMeas s.g_dev) s fun s =>
  readHist lib s.g_ch.toNat 0 s

/-- The four bytes of a `uint32_t` in memory (x64: least significant first),
as `memcpy` copies them. -/
def leBytes (v : Nat) : List Byte :=
  [toByte v, toByte (v / 256), toByte (v / 65536), toByte (v / 16777216)]

/-- The conversion of an `int` to `size_t` (64 bits). -/
def toSize (x : Int) : Nat := (x % 18446744073709551616).toNat

/-- The size `size_t(g_ch)*g_len*4` of the vector `raw` (line 86), which is
also `raw.size()`. -/
def rawSize (s : TH260) : Nat := (toSize s.g_ch * toSize s.g_len * 4) % 18446744073709551616

/-- The bytes of `raw` after the `memcpy` loop of line 87: for each channel in
order the first `g_len` counters of `g_hist[ch]`, four bytes each.  (Reads
outside a buffer, which the source would make when `g_hist` does not have
`g_ch` rows of `g_len` counters, give 0 here.) -/
def rawBytes (s : TH260) : List Byte :=
  (List.range s.g_ch.toNat).flatMap fun ch =>
    (List.range s.g_len.toNat).flatMap fun j => leBytes ((s.g_hist.getD ch []).getD j 0)

/-- The `if`/`else if` chain of lines 82-92 of th260_helper.cpp, once `cmd` has
been extracted from `iss`; `fuel` polls are allowed to an `acquire`. -/
def th260_command (lib : TH260Lib) (fuel : Nat) (cmd : String) (iss : IStream) (s : TH260) :
    Flow TH260 :=
  if cmd = "exit" ∨ cmd = "quit" then .stop (s.print "OK bye\n")
  else if cmd = "init" then
    let r1 := iss.getInt
    let r2 := r1.1.getInt
    let r3 := r2.1.getInt
    let r4 := r3.1.getInt
    (th260_init lib (r1.2.getD 1) (r2.2.getD 0) (r3.2.getD 1) (r4.2.getD 25000) s).thenOK
      TH260.print
  else if cmd = "info" then
    .next (s.print ("OK RES=" ++ s.g_res ++ " CH=" ++ toString s.g_ch ++ " LEN="
      ++ toString s.g_len ++ "\n"))
  else if cmd = "acquire" then
    match th260_acquire lib fuel (iss.getInt.2.getD 5000) s with
    | .ok s =>
      .next (s.print ("OK HIST CH=" ++ toString s.g_ch ++ " LEN=" ++ toString s.g_len
        ++ " BYTES=" ++ toString (rawSize s) ++ "\n" ++ b64 (rawBytes s) ++ "\n"))
    | .exc what s => .exc what s
    | .hang => .hang
  else if cmd = "reset" then (th260_init lib 1 0 1 25000 s).thenOK TH260.print
  else .next (s.print "ERR unknown_cmd\n")

/-- The body of the read loop of th260_helper.cpp for a non-empty line
(lines 81-93). -/
def th260_line (lib : TH260Lib) (fuel : Nat) (line : String) (s : TH260) : Flow TH260 :=
  th260_command lib fuel (commandOf line) (IStream.ofLine line).getString.1 s

/-- The read loop of th260_helper.cpp with its `try`/`catch` (lines 78-95). -/
def th260_loop (lib : TH260Lib) (fuel : Nat) : List String → TH260 → Run TH260
  | [], s => .done s []
  | line :: rest, s =>
    if line = "" then th260_loop lib fuel rest s
    else
      match th260_line lib fuel line s with
      | .next s1 => th260_loop lib fuel rest s1
      | .stop s1 => .done s1 rest
      | .exc what s1 => .done (s1.print ("ERR " ++ what ++ "\n")) rest
      | .undef => .undef
      | .hang => .hang

/-- The function `main` of th260_helper.cpp on the given input lines. -/
def th260_main (lib : TH260Lib) (fuel : Nat) (input : List String) : Run TH260 :=
  match th260_loop lib fuel input (TH260.init.print "OK ready\n") with
  | .done s unread =>
    match th260_close lib s with
    | .ok s1 => .done s1 unread
    | .exc _ s1 => .done s1 unread
    | .hang => .hang
  | .undef => .undef
  | .hang => .hang

/-- The property `P` holds of the globals a call ends with, whether it
returned or threw. -/
def Res.Forall {σ : Type} (P : σ → Prop) : Res σ → Prop
  | .ok s => P s
  | .exc _ s => P s
  | .hang => True

/-- The measurement buffer is what `th260_init` allocated: `g_ch` rows of
`g_len` counters, both counts non-negative `int`s. -/
def BufOK (s : TH260) : Prop :=
  0 ≤ s.g_ch ∧ s.g_ch ≤ 2147483647 ∧ 0 ≤ s.g_len ∧ s.g_len ≤ 2147483647 ∧
    s.g_hist.length = s.g_ch.toNat ∧ ∀ row ∈ s.g_hist, row.length = s.g_len.toNat

/-- The globals hold `n` channels, histogram length `m`, a buffer of `n` rows
of `m` counters, and standard output `o`. -/
def HoldsBuf (n m : Int) (o : String) (s : TH260) : Prop :=
  s.g_ch = n ∧ s.g_len = m ∧ s.out = o ∧ s.g_hist.length = n.toNat ∧
    ∀ row ∈ s.g_hist, row.length = m.toNat

/-- The channel buffers one after the other, each counter as its four bytes:
what the `memcpy` loop of line 87 assembles when the buffer is well formed. -/
def payloadOf (hist : List (List Nat)) : List Byte :=
  hist.flatMap fun row => row.flatMap leBytes

/-- The property `P` holds of the globals a call returns with. -/
def Res.ForallOk {σ : Type} (P : σ → Prop) : Res σ → Prop
  | .ok s => P s
  | .exc _ _ => True
  | .hang => True

/-- The buffer is freshly allocated: `g_ch` rows of `g_len` zeroed counters,
both counts non-negative. -/
def FreshBuf (s : TH260) : Prop :=
  0 ≤ s.g_ch ∧ 0 ≤ s.g_len ∧
    s.g_hist = List.replicate s.g_ch.toNat (List.replicate s.g_len.toNat 0)

/-- A property of the globals that no library call and no store into `g_ch`,
`g_len`, `g_res` or `g_hist` changes. -/
structure Stable (P : TH260 → Prop) : Prop where
  call : ∀ (s : TH260) (c : TCall), P s → P (s.call c)
  ch : ∀ (s : TH260) (v : Int), P s → P { s with g_ch := v }
  len : ∀ (s : TH260) (v : Int), P s → P { s with g_len := v }
  res : ∀ (s : TH260) (v : String), P s → P { s with g_res := v }
  hist : ∀ (s : TH260) (v : List (List Nat)), P s → P { s with g_hist := v }

/-- The property `Q` holds of the `what()` of the exception a call throws. -/
def Res.ForallExc {σ : Type} (Q : String → Prop) : Res σ → Prop
  | .ok _ => True
  | .exc what _ => Q what
  | .hang => True

/-- The text contains no line break. -/
def NoBreak (text : String) : Prop := ∀ c ∈ text.data, c ≠ Char.ofNat 10

instance (text : String) : Decidable (NoBreak text) := by unfold NoBreak; infer_instance

/-- The lines `pre` are all read and none of them ends the read loop of
stage_helper.cpp: each is empty or its body reaches the flush.  The result is
the state in which the next `getline` is made. -/
def stage_steps (drv : Kinesis) : List String → Stage → Option Stage
  | [], s => some s
  | line :: rest, s =>
    if line = "" then stage_steps drv rest s
    else
      match stage_line drv line s with
      | .next s1 => stage_steps drv rest s1
      | _ => none

/-- The lines `pre` are all read and none of them ends the read loop of
th260_helper.cpp. -/
def th260_steps (lib : TH260Lib) (fuel : Nat) : List String → TH260 → Option TH260
  | [], s => some s
  | line :: rest, s =>
    if line = "" then th260_steps lib fuel rest s
    else
      match th260_line lib fuel line s with
      | .next s1 => th260_steps lib fuel rest s1
      | _ => none

/-- The arguments an `init` line passes to `th260_init` (line 83):
`int b=1,o=0,sd=1,so=25000; iss>>b>>o>>sd>>so;`. -/
def initArgs (line : String) : Int × Int × Int × Int :=
  let r1 := (IStream.ofLine line).getString.1.getInt
  let r2 := r1.1.getInt
  let r3 := r2.1.getInt
  let r4 := r3.1.getInt
  (r1.2.getD 1, r2.2.getD 0, r3.2.getD 1, r4.2.getD 25000)

/-- The arguments an `open` line passes to `stage_open` (line 61 of
stage_helper.cpp): `std::string sx,sy; int vmax=750; iss>>sx>>sy>>vmax;`. -/
def openArgs (line : String) : String × String × Int :=
  let r1 := (IStream.ofLine line).getString.1.getString
  let r2 := r1.1.getString
  let r3 := r2.1.getInt
  (r1.2.getD "", r2.2.getD "", r3.2.getD 750)

/-! ## Part 5. Sample drivers and states

Concrete library behaviours and states at which the theorems below are
instantiated. -/

/-- A Kinesis library on which every `PCC_Open` succeeds. -/
def kinesisOK : Kinesis := { PCC_Open := fun _ _ => 1 }

/-- The stage after `open AX AY` on `kinesisOK`, with an empty trace. -/
def stageOpened : Stage :=
  { SX := "AX", SY := "AY", g_open := true, calls := [], out := "" }

/-- A TimeHarp library on which device 0 opens and `TH260_Initialize` then
fails with code `-1`. -/
def libInitFails : TH260Lib :=
  { MAXDEVNUM := 4, MODE_HIST := 0, MAXLENCODE := 5,
    ret := fun _ c => match c with
      | .Initialize _ _ => -1
      | _ => 0,
    intOut := fun _ _ v => v,
    strOut := fun _ _ => "err",
    resOut := fun _ r => r,
    histOut := fun _ _ _ => 0 }

/-- A healthy TimeHarp library: device 1 is the first to open, it reports 2
input channels and histograms of 3 bins, a measurement is complete at the third
poll, and bin `j` of channel `ch` holds `1000*ch + j`. -/
def libOK : TH260Lib :=
  { MAXDEVNUM := 4, MODE_HIST := 0, MAXLENCODE := 5,
    ret := fun _ c => match c with
      | .OpenDevice i => if i = 1 then 0 else -1
      | _ => 0,
    intOut := fun past c _ => match c with
      | .GetNumOfInputChannels _ => 2
      | .SetHistoLen _ _ => 3
      | .CTCStatus _ => if (past.filter (fun x => x = TCall.Sleep 10)).length < 2 then 0 else 1
      | _ => 0,
    strOut := fun _ c => match c with
      | .GetHardwareInfo _ => "TimeHarp 260 P"
      | _ => "err",
    resOut := fun _ _ => "25.0",
    histOut := fun _ c j => match c with
      | .GetHistogram _ ch _ => ch.toNat * 1000 + j
      | _ => 0 }

/-- The counting module after a successful `init` on `libOK`, with an empty
trace: device 1, 2 channels of 3 bins. -/
def th260Ready : TH260 :=
  { g_dev := 1, g_ch := 2, g_len := 3, g_res := "25.0", g_hist := [[0, 0, 0], [0, 0, 0]],
    calls := [], out := "" }

/-- A Kinesis library on which the axis `AY` does not open. -/
def kinesisYFails : Kinesis := { PCC_Open := fun _ serial => if serial = "AY" then 0 else 1 }

/-- The counting module after `acquire 100` on `libOK` from `th260Ready`, before
the response is printed. -/
def th260Acquired : TH260 :=
  { g_dev := 1, g_ch := 2, g_len := 3, g_res := "25.0",
    g_hist := [[0, 1, 2], [1000, 1001, 1002]],
    calls := [.ClearHistMem 1, .StartMeas 1 100, .CTCStatus 1, .Sleep 10, .CTCStatus 1,
      .Sleep 10, .CTCStatus 1, .StopMeas 1, .GetHistogram 1 0 1, .GetHistogram 1 1 1],
    out := "" }

/-! # Theorems -/

/-! ### Lemmas on the loop -/

theorem byteAt_append (pre rest : List Byte) (k : Nat) :
    byteAt (pre ++ rest) (pre.length + k) = byteAt rest k := by
  unfold byteAt
  rw [List.getD_append_right _ _ _ _ (by omega)]
  simp

theorem b64_group_three (pre : List Byte) (a b c : Byte) (rest : List Byte) :
    b64_group (pre ++ a :: b :: c :: rest) (pre ++ a :: b :: c :: rest).length pre.length
      = b64_group [a, b, c] 3 0 := by
  have h0 := byteAt_append pre (a :: b :: c :: rest) 0
  have h1 := byteAt_append pre (a :: b :: c :: rest) 1
  have h2 := byteAt_append pre (a :: b :: c :: rest) 2
  simp only [Nat.add_zero] at h0
  simp only [b64_group, b64_word, h0, h1, h2]
  simp [byteAt]

theorem b64_group_two (pre : List Byte) (a b : Byte) :
    b64_group (pre ++ [a, b]) (pre ++ [a, b]).length pre.length = b64_group [a, b] 2 0 := by
  have h0 := byteAt_append pre [a, b] 0
  have h1 := byteAt_append pre [a, b] 1
  simp only [Nat.add_zero] at h0
  simp only [b64_group, b64_word, h0, h1]
  simp [byteAt]

theorem b64_group_one (pre : List Byte) (a : Byte) :
    b64_group (pre ++ [a]) (pre ++ [a]).length pre.length = b64_group [a] 1 0 := by
  have h0 := byteAt_append pre [a] 0
  simp only [Nat.add_zero] at h0
  simp only [b64_group, b64_word, h0]
  simp [byteAt]

theorem b64_loop_done (p : List Byte) (n i : Nat) (o : List Char) (h : n ≤ i) :
    b64_loop p n i o = o := by
  rw [b64_loop]; simp [Nat.not_lt.mpr h]

theorem b64_loop_step (p : List Byte) (n i : Nat) (o : List Char) (h : i < n) :
    b64_loop p n i o = b64_loop p n (i + 3) (o ++ b64_group p n i) := by
  rw [b64_loop]; simp [h]

/-- The loop entered at the end of `pre` appends the groups of the rest. -/
theorem b64_loop_append (rest : List Byte) : ∀ (pre : List Byte) (o : List Char),
    b64_loop (pre ++ rest) (pre ++ rest).length pre.length o = o ++ encGroups rest := by
  induction rest using encGroups.induct with
  | case1 => intro pre o; rw [b64_loop_done _ _ _ _ (by simp)]; simp [encGroups]
  | case2 a =>
    intro pre o
    rw [b64_loop_step _ _ _ _ (by simp), b64_loop_done _ _ _ _ (by simp), b64_group_one]
    simp [encGroups]
  | case3 a b =>
    intro pre o
    rw [b64_loop_step _ _ _ _ (by simp), b64_loop_done _ _ _ _ (by simp), b64_group_two]
    simp [encGroups]
  | case4 a b c rest ih =>
    intro pre o
    rw [b64_loop_step _ _ _ _ (by simp), b64_group_three]
    have e : pre ++ a :: b :: c :: rest = (pre ++ [a, b, c]) ++ rest := by simp
    have l : pre.length + 3 = (pre ++ [a, b, c]).length := by simp
    rw [e, l, ih]
    simp [encGroups]

theorem b64_data (p : List Byte) : (b64 p).data = encGroups p := by
  have h := b64_loop_append p [] []
  simpa [b64] using h
theorem word_eq (a b c : Nat) (hb : b < 256) (hc : c < 256) :
    (a <<< 16 ||| b <<< 8) ||| c = a * 65536 + b * 256 + c := by
  have h1 : a <<< 16 ||| b <<< 8 = 2 ^ 8 * (a * 256 + b) := by
    rw [Nat.shiftLeft_eq, Nat.shiftLeft_eq]
    have := Nat.mul_add_lt_is_or (i := 16) (b := b * 2 ^ 8) (by omega) a
    rw [Nat.mul_comm a (2^16), ← this]; omega
  rw [h1, ← Nat.mul_add_lt_is_or (by omega)]; omega

theorem sextets_eq (s0 s1 s2 s3 : Nat) (h1 : s1 < 64) (h2 : s2 < 64) (h3 : s3 < 64) :
    sextets s0 s1 s2 s3 = s0 * 262144 + s1 * 4096 + s2 * 64 + s3 := by
  unfold sextets
  have e1 : s0 <<< 18 ||| s1 <<< 12 = 2 ^ 12 * (s0 * 64 + s1) := by
    rw [Nat.shiftLeft_eq, Nat.shiftLeft_eq]
    have := Nat.mul_add_lt_is_or (i := 18) (b := s1 * 2 ^ 12) (by omega) s0
    rw [Nat.mul_comm s0 (2^18), ← this]; omega
  have e2 : 2 ^ 12 * (s0 * 64 + s1) ||| s2 <<< 6 = 2 ^ 6 * (s0 * 4096 + s1 * 64 + s2) := by
    rw [Nat.shiftLeft_eq]
    have := Nat.mul_add_lt_is_or (i := 12) (b := s2 * 2 ^ 6) (by omega) (s0 * 64 + s1)
    rw [← this]; omega
  rw [e1, e2, ← Nat.mul_add_lt_is_or (by omega)]; omega

theorem and63 (x : Nat) : x &&& 63 = x % 64 := Nat.and_pow_two_sub_one_eq_mod x 6

theorem b64val_B64at (k : Nat) (h : k < 64) : b64val (B64at k) = some k := by
  interval_cases k <;> decide

theorem B64at_ne_pad (k : Nat) (h : k < 64) : B64at k ≠ padChar := by
  interval_cases k <;> decide

theorem B64at_mem (k : Nat) (h : k < 64) : B64at k ∈ B64 := by
  interval_cases k <;> decide
theorem b64_group_three_eq (a b c : Byte) :
    b64_group [a, b, c] 3 0 =
      [ B64at ((a.val * 65536 + b.val * 256 + c.val) / 262144 % 64),
        B64at ((a.val * 65536 + b.val * 256 + c.val) / 4096 % 64),
        B64at ((a.val * 65536 + b.val * 256 + c.val) / 64 % 64),
        B64at ((a.val * 65536 + b.val * 256 + c.val) % 64) ] := by
  have hw : b64_word [a, b, c] 3 0 = a.val * 65536 + b.val * 256 + c.val := by
    simp [b64_word, byteAt, word_eq _ _ _ b.isLt c.isLt]
  simp only [b64_group, hw, and63, Nat.shiftRight_eq_div_pow]
  simp

theorem b64_group_two_eq (a b : Byte) :
    b64_group [a, b] 2 0 =
      [ B64at ((a.val * 65536 + b.val * 256) / 262144 % 64),
        B64at ((a.val * 65536 + b.val * 256) / 4096 % 64),
        B64at ((a.val * 65536 + b.val * 256) / 64 % 64),
        padChar ] := by
  have hw : b64_word [a, b] 2 0 = a.val * 65536 + b.val * 256 := by
    have e : b64_word [a, b] 2 0 = (a.val <<< 16 ||| b.val <<< 8) ||| 0 := by
      simp [b64_word, byteAt]
    rw [e, word_eq a.val b.val 0 b.isLt (by omega)]; omega
  simp only [b64_group, hw, and63, Nat.shiftRight_eq_div_pow]
  simp

theorem b64_group_one_eq (a : Byte) :
    b64_group [a] 1 0 =
      [ B64at ((a.val * 65536) / 262144 % 64),
        B64at ((a.val * 65536) / 4096 % 64),
        padChar, padChar ] := by
  have hw : b64_word [a] 1 0 = a.val * 65536 := by
    have e : b64_word [a] 1 0 = a.val <<< 16 := by simp [b64_word, byteAt]
    rw [e, Nat.shiftLeft_eq]
  simp only [b64_group, hw, and63, Nat.shiftRight_eq_div_pow]
  simp
theorem decode_three (a b c : Byte) (rest : List Char) (bs : List Byte)
    (h : b64decodeChars rest = some bs) :
    b64decodeChars (b64_group [a, b, c] 3 0 ++ rest) = some (a :: b :: c :: bs) := by
  have ha := a.isLt
  have hb := b.isLt
  have hc := c.isLt
  rw [b64_group_three_eq]
  simp only [List.cons_append, List.nil_append, b64decodeChars]
  rw [b64val_B64at _ (Nat.mod_lt _ (by decide)), b64val_B64at _ (Nat.mod_lt _ (by decide)),
    b64val_B64at _ (Nat.mod_lt _ (by decide)), b64val_B64at _ (Nat.mod_lt _ (by decide))]
  simp only [if_neg (B64at_ne_pad _ (Nat.mod_lt _ (by decide))), List.append_eq,
    List.nil_append, h]
  rw [sextets_eq _ _ _ _ (Nat.mod_lt _ (by decide)) (Nat.mod_lt _ (by decide))
    (Nat.mod_lt _ (by decide))]
  simp only [Nat.shiftRight_eq_div_pow, toByte, Option.some.injEq, List.cons.injEq, and_true]
  refine ⟨Fin.ext ?_, Fin.ext ?_, Fin.ext ?_⟩ <;> simp only <;> omega

theorem decode_two (a b : Byte) :
    b64decodeChars (b64_group [a, b] 2 0) = some [a, b] := by
  have ha := a.isLt
  have hb := b.isLt
  rw [b64_group_two_eq]
  simp only [b64decodeChars]
  rw [b64val_B64at _ (Nat.mod_lt _ (by decide)), b64val_B64at _ (Nat.mod_lt _ (by decide)),
    b64val_B64at _ (Nat.mod_lt _ (by decide))]
  simp only [if_neg (B64at_ne_pad _ (Nat.mod_lt _ (by decide))), if_true]
  rw [sextets_eq _ _ _ _ (Nat.mod_lt _ (by decide)) (Nat.mod_lt _ (by decide)) (by decide)]
  simp only [Nat.shiftRight_eq_div_pow, toByte, Option.some.injEq, List.cons.injEq, and_true]
  refine ⟨Fin.ext ?_, Fin.ext ?_⟩ <;> simp only <;> omega

theorem decode_one (a : Byte) :
    b64decodeChars (b64_group [a] 1 0) = some [a] := by
  have ha := a.isLt
  rw [b64_group_one_eq]
  simp only [b64decodeChars]
  rw [b64val_B64at _ (Nat.mod_lt _ (by decide)), b64val_B64at _ (Nat.mod_lt _ (by decide))]
  simp only [if_true]
  rw [sextets_eq _ _ _ _ (Nat.mod_lt _ (by decide)) (by decide) (by decide)]
  simp only [Nat.shiftRight_eq_div_pow, toByte, Option.some.injEq, List.cons.injEq, and_true]
  refine Fin.ext ?_
  simp only; omega

theorem decode_encGroups (p : List Byte) : b64decodeChars (encGroups p) = some p := by
  induction p using encGroups.induct with
  | case1 => simp [encGroups, b64decodeChars]
  | case2 a => simpa [encGroups] using decode_one a
  | case3 a b => simpa [encGroups] using decode_two a b
  | case4 a b c rest ih => simpa [encGroups] using decode_three a b c _ _ ih
theorem encGroups_length (p : List Byte) : (encGroups p).length = 4 * ((p.length + 2) / 3) := by
  induction p using encGroups.induct with
  | case1 => simp [encGroups]
  | case2 a => simp [encGroups, b64_group]
  | case3 a b => simp [encGroups, b64_group]
  | case4 a b c rest ih =>
    simp only [encGroups, List.length_append, ih, List.length_cons]
    simp only [b64_group, List.length_cons, List.length_nil]
    omega

theorem encGroups_split (p : List Byte) :
    ∃ body, encGroups p = body ++ List.replicate (padCount p.length) padChar ∧
      ∀ c ∈ body, c ∈ B64 := by
  induction p using encGroups.induct with
  | case1 => exact ⟨[], by simp [encGroups, padCount], by simp⟩
  | case2 a =>
    refine ⟨[B64at ((a.val * 65536) / 262144 % 64), B64at ((a.val * 65536) / 4096 % 64)], ?_, ?_⟩
    · rw [encGroups, b64_group_one_eq]; simp [padCount, List.replicate]
    · intro c hc
      simp only [List.mem_cons, List.mem_singleton, List.not_mem_nil, or_false] at hc
      rcases hc with rfl | rfl <;> exact B64at_mem _ (Nat.mod_lt _ (by decide))
  | case3 a b =>
    refine ⟨[B64at ((a.val * 65536 + b.val * 256) / 262144 % 64),
      B64at ((a.val * 65536 + b.val * 256) / 4096 % 64),
      B64at ((a.val * 65536 + b.val * 256) / 64 % 64)], ?_, ?_⟩
    · rw [encGroups, b64_group_two_eq]; simp [padCount, List.replicate]
    · intro c hc
      simp only [List.mem_cons, List.mem_singleton, List.not_mem_nil, or_false] at hc
      rcases hc with rfl | rfl | rfl <;> exact B64at_mem _ (Nat.mod_lt _ (by decide))
  | case4 a b c rest ih =>
    obtain ⟨body, hb, hmem⟩ := ih
    refine ⟨b64_group [a, b, c] 3 0 ++ body, ?_, ?_⟩
    · rw [encGroups, hb, List.append_assoc]
      have : padCount (a :: b :: c :: rest).length = padCount rest.length := by
        have e : (a :: b :: c :: rest).length % 3 = rest.length % 3 := by
          simp only [List.length_cons]; omega
        simp only [padCount, e]
      rw [this]
    · intro x hx
      rw [List.mem_append] at hx
      rcases hx with hx | hx
      · rw [b64_group_three_eq] at hx
        simp only [List.mem_cons, List.mem_singleton, List.not_mem_nil, or_false] at hx
        rcases hx with rfl | rfl | rfl | rfl <;> exact B64at_mem _ (Nat.mod_lt _ (by decide))
      · exact hmem x hx

theorem B64_not_pad : ∀ c ∈ B64, c ≠ padChar := by decide

theorem B64_not_space : ∀ c ∈ B64, isspace c = false := by decide

theorem b64decode_b64 (b : List Byte) : b64decode (b64 b) = some b := by
  rw [b64decode, b64_data]
  exact decode_encGroups b

theorem b64_chars (p : List Byte) : ∀ c ∈ (b64 p).data, c ∈ B64 ∨ c = padChar := by
  obtain ⟨body, hb, hmem⟩ := encGroups_split p
  intro c hc
  rw [b64_data, hb, List.mem_append] at hc
  rcases hc with hc | hc
  · exact Or.inl (hmem c hc)
  · exact Or.inr (List.eq_of_mem_replicate hc)

theorem b64_no_break (p : List Byte) :
    ∀ c ∈ (b64 p).data, isspace c = false ∧ c ≠ Char.ofNat 10 := by
  intro c hc
  rcases b64_chars p c hc with h | h
  · refine ⟨B64_not_space c h, ?_⟩
    intro e
    have := B64_not_space c h
    rw [e] at this
    exact absurd this (by decide)
  · subst h
    exact ⟨by decide, by decide⟩

/-- C1. Decoding the output of `b64` with the standard base64 decoder gives back
the input bytes, for every byte sequence (empty and of any length modulo 3);
hence `b64` is injective. -/
theorem b64_decode_roundtrip :
    (∀ b : List Byte, b64decode (b64 b) = some b) ∧ Function.Injective b64 := by
  refine ⟨b64decode_b64, ?_⟩
  intro b1 b2 h
  have h1 := b64decode_b64 b1
  rw [h, b64decode_b64 b2] at h1
  exact (Option.some.inj h1).symm

/-- C2. The output of `b64` on `n` bytes has length `4 * ceil(n/3)`, a multiple
of 4; it is a run of alphabet symbols (none of which is the pad) followed by
exactly `padCount n` pad characters, that is 0, 2 or 1 pads for `n mod 3` equal
to 0, 1 or 2; so every character is an alphabet symbol or the pad, and none is
white space or a line break. -/
theorem b64_output_shape (p : List Byte) :
    (b64 p).length = 4 * ((p.length + 2) / 3) ∧
    (b64 p).length % 4 = 0 ∧
    (∃ body, (b64 p).data = body ++ List.replicate (padCount p.length) padChar ∧
      ∀ c ∈ body, c ∈ B64 ∧ c ≠ padChar) ∧
    padCount p.length = (if p.length % 3 = 0 then 0 else if p.length % 3 = 1 then 2 else 1) ∧
    (∀ c ∈ (b64 p).data, c ∈ B64 ∨ c = padChar) ∧
    (∀ c ∈ (b64 p).data, isspace c = false ∧ c ≠ Char.ofNat 10) := by
  have hl : (b64 p).length = 4 * ((p.length + 2) / 3) := by
    rw [String.length, b64_data, encGroups_length]
  obtain ⟨body, hb, hmem⟩ := encGroups_split p
  exact ⟨hl, by omega,
    ⟨body, by rw [b64_data, hb], fun c hc => ⟨hmem c hc, B64_not_pad c (hmem c hc)⟩⟩,
    rfl, b64_chars p, b64_no_break p⟩

/-! ### The stage: mapper -/

theorem toShort_of_range (v : Int) (h1 : -32768 ≤ v) (h2 : v ≤ 32767) : toShort v = v := by
  unfold toShort; omega

theorem toShort_range (v : Int) : -32768 ≤ toShort v ∧ toShort v ≤ 32767 := by
  unfold toShort; omega

theorem wrap32_of_range (v : Int) (h : IsInt32 v) : wrap32 v = v := by
  unfold IsInt32 at h; unfold wrap32; omega

theorem mapAxis_degenerate (ix w : Int) (h : w ≤ 1) : mapAxis ix w = 0 := by
  unfold mapAxis
  rw [if_neg (by omega)]
  rfl

theorem mapAxis_no_overflow (ix w : Int) (hw : 1 < w) (hp : IsInt32 (ix * 32767))
    (h1 : -32768 ≤ Int.tdiv (ix * 32767) (w - 1)) (h2 : Int.tdiv (ix * 32767) (w - 1) ≤ 32767) :
    mapAxis ix w = Int.tdiv (ix * 32767) (w - 1) := by
  unfold mapAxis
  rw [if_pos hw, wrap32_of_range _ hp, toShort_of_range _ h1 h2]

/-- Inside the contract and below the overflow threshold of the `int` product
(`ix ≤ 65538`) the mapper computes the exact truncated quotient, and it lies in
`[0, 32767]`. -/
theorem mapAxis_exact (ix w : Int) (h0 : 0 ≤ ix) (hlt : ix < w) (hs : ix ≤ 65538) :
    mapAxis ix w = (if w > 1 then (ix * 32767) / (w - 1) else 0) ∧
      0 ≤ mapAxis ix w ∧ mapAxis ix w ≤ 32767 := by
  by_cases hw : w > 1
  · have hq : Int.tdiv (ix * 32767) (w - 1) = (ix * 32767) / (w - 1) :=
      Int.tdiv_eq_ediv (by omega) (by omega)
    have hlo : 0 ≤ (ix * 32767) / (w - 1) := Int.ediv_nonneg (by omega) (by omega)
    have hhi : (ix * 32767) / (w - 1) ≤ 32767 :=
      Int.ediv_le_of_le_mul (by omega) (by nlinarith)
    have e := mapAxis_no_overflow ix w hw ⟨by omega, by omega⟩ (by omega) (by omega)
    rw [e, hq, if_pos hw]
    exact ⟨rfl, hlo, hhi⟩
  · rw [mapAxis_degenerate ix w (by omega), if_neg hw]
    exact ⟨rfl, le_refl _, by decide⟩

theorem move_ix_open (ix iy w h : Int) (s : Stage) (ho : s.g_open = true) :
    move_ix ix iy w h s = .ok { s with calls := s.calls ++
      [.PCC_SetOutputVoltage s.SX (mapAxis ix w), .PCC_SetOutputVoltage s.SY (mapAxis iy h)] } := by
  simp [move_ix, setdac, ho, Stage.call]

theorem setdac_open (vx vy : Int) (s : Stage) (ho : s.g_open = true) :
    setdac vx vy s = .ok { s with calls := s.calls ++
      [.PCC_SetOutputVoltage s.SX vx, .PCC_SetOutputVoltage s.SY vy] } := by
  simp [setdac, ho, Stage.call]

/-- C3. At `move_ix 70000 0 100000 1` on an open stage (inside the contract:
`0 ≤ 70000 < 100000`) the `int` product `70000*32767` overflows: the driver
receives `-20012` on the first axis, although the exact truncated quotient is
`22937` and the source's comment promises a value in `[0..32767]`. -/
theorem move_ix_overflow_wide_grid :
    move_ix 70000 0 100000 1 stageOpened =
      .ok { stageOpened with calls :=
        [.PCC_SetOutputVoltage "AX" (-20012), .PCC_SetOutputVoltage "AY" 0] } ∧
    ((70000 : Int) * 32767) / (100000 - 1) = 22937 ∧
    mapAxis 70000 100000 = -20012 ∧ ¬ (0 ≤ mapAxis 70000 100000) := by
  decide

/-! ### The stage: life cycle and commands -/

theorem stage_close_closed (s : Stage) (h : s.g_open = false) : stage_close s = .ok s := by
  simp [stage_close, h]

theorem stage_close_open (s : Stage) (h : s.g_open = true) :
    stage_close s = .ok { s with g_open := false, calls := s.calls ++
      [.PCC_StopPolling s.SX, .PCC_StopPolling s.SY, .PCC_Disable s.SX, .PCC_Disable s.SY,
       .PCC_Close s.SX, .PCC_Close s.SY] } := by
  simp [stage_close, h, Stage.call]

theorem stage_close_ok (s : Stage) : ∃ s1, stage_close s = .ok s1 ∧ s1.g_open = false := by
  cases h : s.g_open
  · exact ⟨s, stage_close_closed s h, h⟩
  · exact ⟨_, stage_close_open s h, rfl⟩

theorem stage_command_disable (drv : Kinesis) (iss : IStream) (s : Stage) :
    stage_command drv "disable" iss s = (stage_close s).thenOK Stage.print := by
  simp [stage_command]

theorem stage_command_setdac (drv : Kinesis) (iss : IStream) (s : Stage) (vx vy : Int)
    (h1 : iss.getInt.2 = some vx) (h2 : iss.getInt.1.getInt.2 = some vy) :
    stage_command drv "setdac" iss s = (setdac (toShort vx) (toShort vy) s).thenOK Stage.print := by
  simp [stage_command, h1, h2]

theorem stage_command_move_ix (drv : Kinesis) (iss : IStream) (s : Stage) (ix iy w h : Int)
    (h1 : iss.getInt.2 = some ix) (h2 : iss.getInt.1.getInt.2 = some iy)
    (h3 : iss.getInt.1.getInt.1.getInt.2 = some w)
    (h4 : iss.getInt.1.getInt.1.getInt.1.getInt.2 = some h) :
    stage_command drv "move_ix" iss s = (move_ix ix iy w h s).thenOK Stage.print := by
  simp [stage_command, h1, h2, h3, h4]
theorem setdac_closed (vx vy : Int) (s : Stage) (hc : s.g_open = false) :
    setdac vx vy s = .exc "not_open" s := by
  simp [setdac, hc]

theorem move_ix_closed (ix iy w h : Int) (s : Stage) (hc : s.g_open = false) :
    move_ix ix iy w h s = .exc "not_open" s := by
  simp [move_ix, hc]

theorem stage_loop_exc (drv : Kinesis) (line : String) (rest : List String) (s s1 : Stage)
    (what : String) (hne : line ≠ "") (h : stage_line drv line s = .exc what s1) :
    stage_loop drv (line :: rest) s = .done (s1.print ("ERR " ++ what ++ "\n")) rest := by
  rw [stage_loop, if_neg hne, h]

theorem stage_loop_next (drv : Kinesis) (line : String) (rest : List String) (s s1 : Stage)
    (hne : line ≠ "") (h : stage_line drv line s = .next s1) :
    stage_loop drv (line :: rest) s = stage_loop drv rest s1 := by
  rw [stage_loop, if_neg hne, h]

theorem stage_line_move_ix_sample (drv : Kinesis) (s : Stage) :
    stage_line drv "move_ix 0 0 10 10" s = (move_ix 0 0 10 10 s).thenOK Stage.print := by
  have hc : commandOf "move_ix 0 0 10 10" = "move_ix" := by decide
  rw [stage_line, hc]
  exact stage_command_move_ix drv _ s 0 0 10 10 (by decide) (by decide) (by decide) (by decide)

/-- C8. On a closed stage `setdac` and `move_ix` throw `not_open` for all
arguments and leave the globals and the driver trace as they were (no output
voltage call is made); the dispatcher answers every `setdac` or `move_ix` line
whose numbers are read with the line `ERR not_open` and an unchanged state,
in particular `move_ix 0 0 10 10`, also as the first command of a session,
before any `open`. -/
theorem closed_stage_rejects_output (drv : Kinesis) (vx vy ix iy w h : Int) (s : Stage)
    (rest : List String) (hc : s.g_open = false) :
    setdac vx vy s = .exc "not_open" s ∧
    move_ix ix iy w h s = .exc "not_open" s ∧
    (∀ line : String, line ≠ "" → commandOf line = "setdac" →
      (IStream.ofLine line).getString.1.getInt.2 = some vx →
      (IStream.ofLine line).getString.1.getInt.1.getInt.2 = some vy →
      stage_loop drv (line :: rest) s = .done (s.print "ERR not_open\n") rest) ∧
    (∀ line : String, line ≠ "" → commandOf line = "move_ix" →
      (IStream.ofLine line).getString.1.getInt.2 = some ix →
      (IStream.ofLine line).getString.1.getInt.1.getInt.2 = some iy →
      (IStream.ofLine line).getString.1.getInt.1.getInt.1.getInt.2 = some w →
      (IStream.ofLine line).getString.1.getInt.1.getInt.1.getInt.1.getInt.2 = some h →
      stage_loop drv (line :: rest) s = .done (s.print "ERR not_open\n") rest) ∧
    stage_loop drv ("move_ix 0 0 10 10" :: rest) s = .done (s.print "ERR not_open\n") rest ∧
    stage_main drv ["move_ix 0 0 10 10"] =
      .done { Stage.init with out := "OK ready\nERR not_open\n" } [] := by
  refine ⟨setdac_closed vx vy s hc, move_ix_closed ix iy w h s hc, ?_, ?_, ?_, ?_⟩
  · intro line hne hcmd h1 h2
    have hl : stage_line drv line s = .exc "not_open" s := by
      rw [stage_line, hcmd, stage_command_setdac drv _ s vx vy h1 h2,
        setdac_closed _ _ s hc]
      rfl
    rw [stage_loop_exc drv _ rest s s "not_open" hne hl]
    rfl
  · intro line hne hcmd h1 h2 h3 h4
    have hl : stage_line drv line s = .exc "not_open" s := by
      rw [stage_line, hcmd, stage_command_move_ix drv _ s ix iy w h h1 h2 h3 h4,
        move_ix_closed _ _ _ _ s hc]
      rfl
    rw [stage_loop_exc drv _ rest s s "not_open" hne hl]
    rfl
  · have hl : stage_line drv "move_ix 0 0 10 10" s = .exc "not_open" s := by
      rw [stage_line_move_ix_sample, move_ix_closed _ _ _ _ s hc]; rfl
    rw [stage_loop_exc drv _ rest s s "not_open" (by decide) hl]
    rfl
  · have hl : stage_line drv "move_ix 0 0 10 10" (Stage.init.print "OK ready\n")
        = .exc "not_open" (Stage.init.print "OK ready\n") := by
      rw [stage_line_move_ix_sample, move_ix_closed _ _ _ _ _ rfl]; rfl
    rw [stage_main, stage_loop_exc drv _ [] _ _ "not_open" (by decide) hl]
    rfl

/-- Instance of `closed_stage_rejects_output` at the initial state. -/
theorem closed_stage_rejects_output_witness :
    Stage.init.g_open = false ∧
    setdac 16000 (-16000) Stage.init = .exc "not_open" Stage.init ∧
    move_ix 0 0 10 10 Stage.init = .exc "not_open" Stage.init ∧
    stage_loop kinesisOK ["setdac 16000 -16000", "disable"] Stage.init =
      .done (Stage.init.print "ERR not_open\n") ["disable"] :=
  have h := closed_stage_rejects_output kinesisOK 16000 (-16000) 0 0 10 10 Stage.init
    ["disable"] rfl
  ⟨rfl, h.1, h.2.1,
    h.2.2.1 "setdac 16000 -16000" (by decide) (by decide) (by decide) (by decide)⟩

theorem toShort_congr (v : Int) : (toShort v - v) % 65536 = 0 := by
  unfold toShort; omega

/-- C9, as stated, fails: on an open stage `setdac 40000 0` is answered `OK`
and the driver receives `-25536`, the value `40000` wrapped into 16 bits. -/
theorem setdac_out_of_range_wraps :
    stage_loop kinesisOK ["setdac 40000 0"] stageOpened =
      .done { stageOpened with
        calls := [.PCC_SetOutputVoltage "AX" (-25536), .PCC_SetOutputVoltage "AY" 0],
        out := "OK\n" } [] := by
  decide

/-- C9, amended. For a `setdac vx vy` line on an open stage (both numbers read
as `int`s) the driver receives `(short)vx` on the first axis and `(short)vy` on
the second and the response is `OK`; a value in `[-32768, 32767]` is forwarded
as it is, and a value outside it is forwarded reduced modulo `2^16` into that
range, with no `ERR`. -/
theorem setdac_command_forwards (drv : Kinesis) (line : String) (s : Stage) (vx vy : Int)
    (ho : s.g_open = true) (hc : commandOf line = "setdac")
    (h1 : (IStream.ofLine line).getString.1.getInt.2 = some vx)
    (h2 : (IStream.ofLine line).getString.1.getInt.1.getInt.2 = some vy) :
    stage_line drv line s = .next (Stage.print { s with calls := s.calls ++
      [.PCC_SetOutputVoltage s.SX (toShort vx), .PCC_SetOutputVoltage s.SY (toShort vy)] }
      "OK\n") ∧
    (-32768 ≤ vx → vx ≤ 32767 → toShort vx = vx) ∧
    (-32768 ≤ vy → vy ≤ 32767 → toShort vy = vy) ∧
    (-32768 ≤ toShort vx ∧ toShort vx ≤ 32767 ∧ (toShort vx - vx) % 65536 = 0) ∧
    (-32768 ≤ toShort vy ∧ toShort vy ≤ 32767 ∧ (toShort vy - vy) % 65536 = 0) := by
  refine ⟨?_, toShort_of_range vx, toShort_of_range vy,
    ⟨(toShort_range vx).1, (toShort_range vx).2, toShort_congr vx⟩,
    ⟨(toShort_range vy).1, (toShort_range vy).2, toShort_congr vy⟩⟩
  rw [stage_line, hc, stage_command_setdac drv _ s vx vy h1 h2, setdac_open _ _ s ho]
  rfl

/-- Instance of `setdac_command_forwards` at the line `setdac 16000 -16000`. -/
theorem setdac_command_forwards_witness :
    stage_line kinesisOK "setdac 16000 -16000" stageOpened =
      .next { stageOpened with
        calls := [.PCC_SetOutputVoltage "AX" 16000, .PCC_SetOutputVoltage "AY" (-16000)],
        out := "OK\n" } :=
  (setdac_command_forwards kinesisOK "setdac 16000 -16000" stageOpened 16000 (-16000) rfl
    (by decide) (by decide) (by decide)).1.trans (by decide)

/-- C4, as stated, fails: on an open stage `move_ix 0 0 0 -3` (width 0, height
negative) and `move_ix 5 7 3 1` (both indices outside the grid) are answered
`OK`, and values computed from the arguments reach the driver. -/
theorem move_ix_accepts_out_of_contract :
    stage_loop kinesisOK ["move_ix 0 0 0 -3", "move_ix 5 7 3 1"] stageOpened =
      .done { stageOpened with
        calls := [.PCC_SetOutputVoltage "AX" 0, .PCC_SetOutputVoltage "AY" 0,
                  .PCC_SetOutputVoltage "AX" 16381, .PCC_SetOutputVoltage "AY" 0],
        out := "OK\nOK\n" } [] := by
  decide

/-- C4, amended. On an open stage `move_ix` validates nothing: for all
arguments it returns without error after forwarding one value per axis, and a
`move_ix` line whose four numbers are read is answered `OK`; an axis of extent
at most 1 (zero and negative extents included) gets 0 whatever the index; an
axis of extent above 1 gets the truncated quotient `ix*32767 / (extent-1)`
whenever the product fits an `int` and the quotient a `short`, whether or not
the index lies in `[0, extent)`. -/
theorem move_ix_no_validation (ix iy w h : Int) (s : Stage) (ho : s.g_open = true) :
    move_ix ix iy w h s = .ok { s with calls := s.calls ++
      [.PCC_SetOutputVoltage s.SX (mapAxis ix w), .PCC_SetOutputVoltage s.SY (mapAxis iy h)] } ∧
    (∀ (drv : Kinesis) (line : String), commandOf line = "move_ix" →
      (IStream.ofLine line).getString.1.getInt.2 = some ix →
      (IStream.ofLine line).getString.1.getInt.1.getInt.2 = some iy →
      (IStream.ofLine line).getString.1.getInt.1.getInt.1.getInt.2 = some w →
      (IStream.ofLine line).getString.1.getInt.1.getInt.1.getInt.1.getInt.2 = some h →
      stage_line drv line s = .next (Stage.print { s with calls := s.calls ++
        [.PCC_SetOutputVoltage s.SX (mapAxis ix w), .PCC_SetOutputVoltage s.SY (mapAxis iy h)] }
        "OK\n")) ∧
    (w ≤ 1 → mapAxis ix w = 0) ∧ (h ≤ 1 → mapAxis iy h = 0) ∧
    (1 < w → IsInt32 (ix * 32767) → -32768 ≤ Int.tdiv (ix * 32767) (w - 1) →
      Int.tdiv (ix * 32767) (w - 1) ≤ 32767 → mapAxis ix w = Int.tdiv (ix * 32767) (w - 1)) ∧
    (1 < h → IsInt32 (iy * 32767) → -32768 ≤ Int.tdiv (iy * 32767) (h - 1) →
      Int.tdiv (iy * 32767) (h - 1) ≤ 32767 → mapAxis iy h = Int.tdiv (iy * 32767) (h - 1)) := by
  refine ⟨move_ix_open ix iy w h s ho, ?_, mapAxis_degenerate ix w, mapAxis_degenerate iy h,
    mapAxis_no_overflow ix w, mapAxis_no_overflow iy h⟩
  intro drv line hc h1 h2 h3 h4
  rw [stage_line, hc, stage_command_move_ix drv _ s ix iy w h h1 h2 h3 h4,
    move_ix_open ix iy w h s ho]
  rfl

/-- Instance of `move_ix_no_validation` at `move_ix -1 0 10 0`. -/
theorem move_ix_no_validation_witness :
    stageOpened.g_open = true ∧
    move_ix (-1) 0 10 0 stageOpened = .ok { stageOpened with calls := stageOpened.calls ++
      [.PCC_SetOutputVoltage "AX" (-3640), .PCC_SetOutputVoltage "AY" 0] } ∧
    stage_line kinesisOK "move_ix -1 0 10 0" stageOpened =
      .next { stageOpened with
        calls := [.PCC_SetOutputVoltage "AX" (-3640), .PCC_SetOutputVoltage "AY" 0],
        out := "OK\n" } :=
  ⟨rfl, (move_ix_no_validation (-1) 0 10 0 stageOpened rfl).1,
    ((move_ix_no_validation (-1) 0 10 0 stageOpened rfl).2.1 kinesisOK "move_ix -1 0 10 0"
      (by decide) (by decide) (by decide) (by decide) (by decide)).trans (by decide)⟩

/-! ### The counting module: life cycle -/

theorem th260_close_closed (lib : TH260Lib) (s : TH260) (h : s.g_dev < 0) :
    th260_close lib s = .ok s := by
  rw [th260_close, if_neg (by omega)]

theorem th260_close_open (lib : TH260Lib) (s : TH260) (h : 0 ≤ s.g_dev) :
    th260_close lib s = .ok { (closeAll lib.MAXDEVNUM 0 s) with g_dev := -1 } := by
  rw [th260_close, if_pos (by omega)]

theorem th260_close_ok (lib : TH260Lib) (s : TH260) :
    ∃ s1, th260_close lib s = .ok s1 ∧ s1.g_dev < 0 := by
  by_cases h : 0 ≤ s.g_dev
  · exact ⟨_, th260_close_open lib s h, show (-1 : Int) < 0 by omega⟩
  · exact ⟨s, th260_close_closed lib s (by omega), by omega⟩

theorem Res.Forall_andThen {σ : Type} (P : σ → Prop) (r : Res σ) (k : σ → Res σ)
    (hr : r.Forall P) (hk : ∀ s, P s → (k s).Forall P) : (r.andThen k).Forall P := by
  cases r with
  | ok s => exact hk s hr
  | exc w s => exact hr
  | hang => trivial

theorem pq_throw_forall (P : TH260 → Prop) (hP : ∀ s c, P s → P (s.call c)) (lib : TH260Lib)
    (what : String) (rc : Int) (s : TH260) (h : P s) : (pq_throw lib what rc s).Forall P :=
  hP _ _ h

theorem checked_forall (P : TH260 → Prop) (hP : ∀ s c, P s → P (s.call c)) (lib : TH260Lib)
    (what : String) (c : TCall) (s : TH260) (k : TH260 → Res TH260) (h : P s)
    (hk : ∀ s1, P s1 → (k s1).Forall P) : (checked lib what c s k).Forall P := by
  unfold checked
  split
  · exact pq_throw_forall P hP lib _ _ _ (hP _ _ h)
  · exact hk _ (hP _ _ h)

theorem forChannels_forall (P : TH260 → Prop) (hP : ∀ s c, P s → P (s.call c)) (lib : TH260Lib)
    (what : String) (mk : Int → TCall) (n : Nat) : ∀ (ch : Int) (s : TH260), P s →
    (forChannels lib what mk n ch s).Forall P := by
  induction n with
  | zero => intro ch s h; exact h
  | succ n ih =>
    intro ch s h
    unfold forChannels
    split
    · exact pq_throw_forall P hP lib _ _ _ (hP _ _ h)
    · exact ih _ _ (hP _ _ h)

theorem pollCTC_forall (P : TH260 → Prop) (hP : ∀ s c, P s → P (s.call c)) (lib : TH260Lib)
    (fuel : Nat) : ∀ (s : TH260), P s → (pollCTC lib fuel s).Forall P := by
  induction fuel with
  | zero => intro s _; trivial
  | succ n ih =>
    intro s h
    unfold pollCTC
    simp only
    split
    · exact pq_throw_forall P hP lib _ _ _ (hP _ _ h)
    · split
      · exact ih _ (hP _ _ (hP _ _ h))
      · exact hP _ _ h

theorem th260_init_tail_stable (P : TH260 → Prop) (hP : Stable P) (lib : TH260Lib)
    (b o so : Int) (s : TH260) (h : P s) : (th260_init_tail lib b o so s).Forall P := by
  unfold th260_init_tail
  refine checked_forall _ hP.call lib _ _ _ _ h (fun s1 h1 => ?_)
  refine Res.Forall_andThen _ _ _ (forChannels_forall _ hP.call lib _ _ _ _ _ h1)
    (fun s2 h2 => ?_)
  refine checked_forall _ hP.call lib _ _ _ _ (hP.len _ _ h2) (fun s3 h3 => ?_)
  refine checked_forall _ hP.call lib _ _ _ _ h3 (fun s4 h4 => ?_)
  refine checked_forall _ hP.call lib _ _ _ _ h4 (fun s5 h5 => ?_)
  refine checked_forall _ hP.call lib _ _ _ _ (hP.res _ _ h5) (fun s6 h6 => ?_)
  split
  · exact h6
  · exact hP.call _ _ (hP.hist _ _ h6)

theorem th260_init_body_stable (P : TH260 → Prop) (hP : Stable P) (lib : TH260Lib)
    (b o sd so : Int) (s : TH260) (h : P s) : (th260_init_body lib b o sd so s).Forall P := by
  unfold th260_init_body
  refine checked_forall _ hP.call lib _ _ _ _ h (fun s1 h1 => ?_)
  refine checked_forall _ hP.call lib _ _ _ _ h1 (fun s2 h2 => ?_)
  refine checked_forall _ hP.call lib _ _ _ _ (hP.ch _ _ h2) (fun s3 h3 => ?_)
  refine checked_forall _ hP.call lib _ _ _ _ h3 (fun s4 h4 => ?_)
  split
  · refine checked_forall _ hP.call lib _ _ _ _ h4 (fun s5 h5 => ?_)
    exact Res.Forall_andThen _ _ _ (forChannels_forall _ hP.call lib _ _ _ _ _ h5)
      (fun s6 h6 => th260_init_tail_stable P hP lib b o so s6 h6)
  · refine checked_forall _ hP.call lib _ _ _ _ h4 (fun s5 h5 => ?_)
    exact Res.Forall_andThen _ _ _ (forChannels_forall _ hP.call lib _ _ _ _ _ h5)
      (fun s6 h6 => th260_init_tail_stable P hP lib b o so s6 h6)

theorem stable_dev (d : Int) : Stable (fun t => t.g_dev = d) :=
  ⟨fun _ _ h => h, fun _ _ h => h, fun _ _ h => h, fun _ _ h => h, fun _ _ h => h⟩

theorem stable_out (o : String) : Stable (fun t => t.out = o) :=
  ⟨fun _ _ h => h, fun _ _ h => h, fun _ _ h => h, fun _ _ h => h, fun _ _ h => h⟩

theorem th260_init_body_dev (lib : TH260Lib) (b o sd so : Int) (s : TH260) :
    (th260_init_body lib b o sd so s).Forall (fun t => t.g_dev = s.g_dev) :=
  th260_init_body_stable _ (stable_dev s.g_dev) lib b o sd so s rfl

theorem Res.andThen_ok {σ : Type} (s : σ) (k : σ → Res σ) : (Res.ok s).andThen k = k s := rfl

theorem stage_close_twice (s : Stage) : (stage_close s).andThen stage_close = stage_close s := by
  obtain ⟨s1, h1, h2⟩ := stage_close_ok s
  rw [h1, Res.andThen_ok, stage_close_closed s1 h2]

theorem th260_close_twice (lib : TH260Lib) (t : TH260) :
    (th260_close lib t).andThen (th260_close lib) = th260_close lib t := by
  obtain ⟨t1, h1, h2⟩ := th260_close_ok lib t
  rw [h1, Res.andThen_ok, th260_close_closed lib t1 h2]

/-- C7. `stage_close` and `th260_close` always return (they never throw) and
leave the controller Closed (`g_open` false, `g_dev` negative); on a Closed
controller they make no driver call and change nothing; closing twice is the
same as closing once; and a line whose command is `disable` is answered `OK`
in every state of the stage. -/
theorem close_idempotent (drv : Kinesis) (lib : TH260Lib) (s : Stage) (t : TH260)
    (line : String) (hd : commandOf line = "disable") :
    (∃ s1, stage_close s = .ok s1 ∧ s1.g_open = false ∧
      stage_line drv line s = .next (s1.print "OK\n")) ∧
    (s.g_open = false → stage_close s = .ok s) ∧
    (stage_close s).andThen stage_close = stage_close s ∧
    (∃ t1, th260_close lib t = .ok t1 ∧ t1.g_dev < 0) ∧
    (t.g_dev < 0 → th260_close lib t = .ok t) ∧
    (th260_close lib t).andThen (th260_close lib) = th260_close lib t := by
  refine ⟨?_, stage_close_closed s, stage_close_twice s, th260_close_ok lib t,
    th260_close_closed lib t, th260_close_twice lib t⟩
  obtain ⟨s1, h1, h2⟩ := stage_close_ok s
  refine ⟨s1, h1, h2, ?_⟩
  rw [stage_line, hd, stage_command_disable, h1]
  rfl

/-- Instance of `close_idempotent` at the line `disable` on a stage that was
never opened and a counting module that was never initialised. -/
theorem close_idempotent_witness :
    commandOf "disable" = "disable" ∧
    stage_close Stage.init = .ok Stage.init ∧
    th260_close libOK TH260.init = .ok TH260.init :=
  ⟨by decide,
    (close_idempotent kinesisOK libOK Stage.init TH260.init "disable" (by decide)).2.1 rfl,
    (close_idempotent kinesisOK libOK Stage.init TH260.init "disable" (by decide)).2.2.2.2.1
      (by decide)⟩

/-! ### The counting module: what a successful `init` leaves -/

theorem checked_forallOk (P : TH260 → Prop) (lib : TH260Lib) (what : String) (c : TCall)
    (s : TH260) (k : TH260 → Res TH260) (hk : ∀ s1, (k s1).ForallOk P) :
    (checked lib what c s k).ForallOk P := by
  unfold checked
  split
  · trivial
  · exact hk _

theorem Res.ForallOk_andThen {σ : Type} (P : σ → Prop) (r : Res σ) (k : σ → Res σ)
    (hk : ∀ s, (k s).ForallOk P) : (r.andThen k).ForallOk P := by
  cases r with
  | ok s => exact hk s
  | exc w s => trivial
  | hang => trivial

theorem th260_init_tail_fresh (lib : TH260Lib) (b o so : Int) (s : TH260) :
    (th260_init_tail lib b o so s).ForallOk FreshBuf := by
  unfold th260_init_tail
  refine checked_forallOk _ lib _ _ _ _ (fun s1 => ?_)
  refine Res.ForallOk_andThen _ _ _ (fun s2 => ?_)
  refine checked_forallOk _ lib _ _ _ _ (fun s3 => ?_)
  refine checked_forallOk _ lib _ _ _ _ (fun s4 => ?_)
  refine checked_forallOk _ lib _ _ _ _ (fun s5 => ?_)
  refine checked_forallOk _ lib _ _ _ _ (fun s6 => ?_)
  split
  · trivial
  · next h =>
    exact ⟨show 0 ≤ s6.g_ch by omega, show 0 ≤ s6.g_len by omega, rfl⟩

theorem th260_init_fresh (lib : TH260Lib) (b o sd so : Int) (s : TH260) :
    (th260_init lib b o sd so s).ForallOk FreshBuf := by
  unfold th260_init
  refine Res.ForallOk_andThen _ _ _ (fun s0 => ?_)
  simp only
  split
  · trivial
  · unfold th260_init_body
    refine checked_forallOk _ lib _ _ _ _ (fun s1 => ?_)
    refine checked_forallOk _ lib _ _ _ _ (fun s2 => ?_)
    refine checked_forallOk _ lib _ _ _ _ (fun s3 => ?_)
    refine checked_forallOk _ lib _ _ _ _ (fun s4 => ?_)
    split
    · refine checked_forallOk _ lib _ _ _ _ (fun s5 => ?_)
      exact Res.ForallOk_andThen _ _ _ (fun s6 => th260_init_tail_fresh lib b o so s6)
    · refine checked_forallOk _ lib _ _ _ _ (fun s5 => ?_)
      exact Res.ForallOk_andThen _ _ _ (fun s6 => th260_init_tail_fresh lib b o so s6)

/-- After a successful `th260_init` the buffer has `g_ch` rows of `g_len`
counters, so `BufOK` holds as soon as the two counts are `int` values. -/
theorem th260_init_ok_buf (lib : TH260Lib) (b o sd so : Int) (s s1 : TH260)
    (h : th260_init lib b o sd so s = .ok s1) (hch : s1.g_ch ≤ 2147483647)
    (hlen : s1.g_len ≤ 2147483647) : BufOK s1 := by
  have hf := th260_init_fresh lib b o sd so s
  rw [h] at hf
  obtain ⟨h1, h2, h3⟩ : FreshBuf s1 := hf
  refine ⟨h1, hch, h2, hlen, ?_, ?_⟩
  · rw [h3, List.length_replicate]
  · intro row hrow
    rw [h3] at hrow
    rw [List.eq_of_mem_replicate hrow, List.length_replicate]
/-! ### A failing command prints nothing itself -/

theorem Res.thenOK_exc {σ : Type} (print : σ → String → σ) (r : Res σ) (what : String) (s1 : σ)
    (h : r.thenOK print = .exc what s1) : r = .exc what s1 := by
  cases r with
  | ok s => exact absurd h (by simp [Res.thenOK])
  | exc w s =>
    simp only [Res.thenOK] at h
    injection h with h1 h2
    rw [h1, h2]
  | hang => exact absurd h (by simp [Res.thenOK])

theorem stage_open_out (drv : Kinesis) (sx sy : String) (v : Int) (s : Stage) :
    (stage_open drv sx sy v s).Forall (fun t => t.out = s.out) := by
  unfold stage_open
  simp only [Stage.call]
  split
  · rfl
  · split
    · rfl
    · rfl

theorem setdac_out (vx vy : Int) (s : Stage) :
    (setdac vx vy s).Forall (fun t => t.out = s.out) := by
  unfold setdac
  split
  · rfl
  · rfl

theorem move_ix_out (ix iy w h : Int) (s : Stage) :
    (move_ix ix iy w h s).Forall (fun t => t.out = s.out) := by
  unfold move_ix
  split
  · rfl
  · exact setdac_out _ _ s

theorem stage_close_out (s : Stage) : (stage_close s).Forall (fun t => t.out = s.out) := by
  unfold stage_close
  split
  · rfl
  · rfl

theorem Res.Forall_exc {σ : Type} (P : σ → Prop) (r : Res σ) (what : String) (s1 : σ)
    (hr : r.Forall P) (h : r = .exc what s1) : P s1 := by
  rw [h] at hr
  exact hr

theorem stage_command_exc_out (drv : Kinesis) (cmd : String) (iss : IStream) (s s1 : Stage)
    (what : String) (h : stage_command drv cmd iss s = .exc what s1) : s1.out = s.out := by
  unfold stage_command at h
  dsimp only at h
  split at h
  · exact absurd h (by simp)
  · split at h
    · exact Res.Forall_exc (fun t => t.out = s.out) _ _ _ (stage_open_out drv _ _ _ s)
        (Res.thenOK_exc _ _ _ _ h)
    · split at h
      · split at h
        · exact Res.Forall_exc (fun t => t.out = s.out) _ _ _ (setdac_out _ _ s)
            (Res.thenOK_exc _ _ _ _ h)
        · exact absurd h (by simp)
      · split at h
        · split at h
          · exact Res.Forall_exc (fun t => t.out = s.out) _ _ _ (move_ix_out _ _ _ _ s)
              (Res.thenOK_exc _ _ _ _ h)
          · exact absurd h (by simp)
        · split at h
          · exact Res.Forall_exc (fun t => t.out = s.out) _ _ _ (stage_close_out s)
              (Res.thenOK_exc _ _ _ _ h)
          · exact absurd h (by simp)

theorem closeAll_out (n : Nat) : ∀ (i : Int) (s : TH260), (closeAll n i s).out = s.out := by
  induction n with
  | zero => intro i s; rfl
  | succ n ih => intro i s; rw [closeAll, ih]; rfl

theorem openFirst_out (lib : TH260Lib) (n : Nat) :
    ∀ (i : Int) (s : TH260), (openFirst lib n i s).out = s.out := by
  induction n with
  | zero => intro i s; rfl
  | succ n ih =>
    intro i s
    unfold openFirst
    split
    · rfl
    · rw [ih]; rfl

theorem th260_init_out (lib : TH260Lib) (b o sd so : Int) (s : TH260) :
    (th260_init lib b o sd so s).Forall (fun t => t.out = s.out) := by
  unfold th260_init
  have hc : (th260_close lib s).Forall (fun t => t.out = s.out) := by
    unfold th260_close
    split
    · exact closeAll_out _ _ s
    · rfl
  refine Res.Forall_andThen _ _ _ hc (fun s0 h0 => ?_)
  have ho : (openFirst lib lib.MAXDEVNUM 0 s0).out = s.out := by rw [openFirst_out, h0]
  simp only
  split
  · exact ho
  · exact th260_init_body_stable _ (stable_out s.out) lib b o sd so _ ho

theorem readHist_stable (P : TH260 → Prop) (hP : Stable P) (lib : TH260Lib) (k : Nat) :
    ∀ (ch : Nat) (s : TH260), P s → (readHist lib k ch s).Forall P := by
  induction k with
  | zero => intro ch s h; exact h
  | succ k ih =>
    intro ch s h
    unfold readHist
    simp only
    split
    · exact pq_throw_forall P hP.call lib _ _ _ (hP.call _ _ (hP.hist _ _ h))
    · exact ih _ _ (hP.call _ _ (hP.hist _ _ h))

theorem th260_acquire_stable (P : TH260 → Prop) (hP : Stable P) (lib : TH260Lib) (fuel : Nat)
    (ms : Int) (s : TH260) (h : P s) : (th260_acquire lib fuel ms s).Forall P := by
  unfold th260_acquire
  refine checked_forall _ hP.call lib _ _ _ _ h (fun s1 h1 => ?_)
  refine checked_forall _ hP.call lib _ _ _ _ h1 (fun s2 h2 => ?_)
  refine Res.Forall_andThen _ _ _ (pollCTC_forall _ hP.call lib _ _ h2) (fun s3 h3 => ?_)
  refine checked_forall _ hP.call lib _ _ _ _ h3 (fun s4 h4 => ?_)
  exact readHist_stable P hP lib _ _ _ h4

theorem th260_command_exc_out (lib : TH260Lib) (fuel : Nat) (cmd : String) (iss : IStream)
    (s s1 : TH260) (what : String) (h : th260_command lib fuel cmd iss s = .exc what s1) :
    s1.out = s.out := by
  unfold th260_command at h
  dsimp only at h
  split at h
  · exact absurd h (by simp)
  · split at h
    · exact Res.Forall_exc (fun t => t.out = s.out) _ _ _ (th260_init_out lib _ _ _ _ s)
        (Res.thenOK_exc _ _ _ _ h)
    · split at h
      · exact absurd h (by simp)
      · split at h
        · have ha := th260_acquire_stable _ (stable_out s.out) lib fuel
            (iss.getInt.2.getD 5000) s rfl
          split at h
          · exact absurd h (by simp)
          · next w s2 he =>
            injection h with h1 h2
            rw [he] at ha
            rw [← h2]
            exact ha
          · exact absurd h (by simp)
        · split at h
          · exact Res.Forall_exc (fun t => t.out = s.out) _ _ _ (th260_init_out lib _ _ _ _ s)
              (Res.thenOK_exc _ _ _ _ h)
          · exact absurd h (by simp)

theorem th260_loop_exc (lib : TH260Lib) (fuel : Nat) (line : String) (rest : List String)
    (s s1 : TH260) (what : String) (hne : line ≠ "")
    (h : th260_line lib fuel line s = .exc what s1) :
    th260_loop lib fuel (line :: rest) s = .done (s1.print ("ERR " ++ what ++ "\n")) rest := by
  rw [th260_loop, if_neg hne, h]

theorem stage_line_exc_out (drv : Kinesis) (line : String) (s s1 : Stage) (what : String)
    (h : stage_line drv line s = .exc what s1) : s1.out = s.out :=
  stage_command_exc_out drv _ _ s s1 what h

theorem th260_line_exc_out (lib : TH260Lib) (fuel : Nat) (line : String) (s s1 : TH260)
    (what : String) (h : th260_line lib fuel line s = .exc what s1) : s1.out = s.out :=
  th260_command_exc_out lib fuel _ _ s s1 what h

theorem stage_open_exc_closed (drv : Kinesis) (sx sy : String) (v : Int) (s s1 : Stage)
    (what : String) (hc : s.g_open = false) (h : stage_open drv sx sy v s = .exc what s1) :
    s1.g_open = false := by
  unfold stage_open at h
  simp only [Stage.call] at h
  split at h
  · injection h with _ h2
    rw [← h2]; exact hc
  · split at h
    · injection h with _ h2
      rw [← h2]; exact hc
    · exact absurd h (by simp)

theorem closeAll_dev (n : Nat) : ∀ (i : Int) (s : TH260), (closeAll n i s).g_dev = s.g_dev := by
  induction n with
  | zero => intro i s; rfl
  | succ n ih => intro i s; rw [closeAll, ih]; rfl

theorem openFirst_dev (lib : TH260Lib) (n : Nat) : ∀ (i : Int) (s : TH260),
    (openFirst lib n i s).g_dev = s.g_dev ∨
      (i ≤ (openFirst lib n i s).g_dev ∧ (openFirst lib n i s).g_dev < i + n) := by
  induction n with
  | zero => intro i s; exact Or.inl rfl
  | succ n ih =>
    intro i s
    unfold openFirst
    split
    · right
      show i ≤ i ∧ i < i + ((n + 1 : Nat) : Int)
      omega
    · rcases ih (i + 1) (s.call (.OpenDevice i)) with h | h
      · left; rw [h]; rfl
      · right
        have : ((n + 1 : Nat) : Int) = n + 1 := by omega
        omega

theorem th260_init_exc (lib : TH260Lib) (b o sd so : Int) (t t1 : TH260) (whatT : String)
    (ht : th260_init lib b o sd so t = .exc whatT t1) :
    (∃ t0, th260_close lib t = .ok t0 ∧
      t1.g_dev = (openFirst lib lib.MAXDEVNUM 0 t0).g_dev) ∧
    (t1.g_dev < 0 → whatT = "no TH260") ∧
    (whatT ≠ "no TH260" → 0 ≤ t1.g_dev ∧ t1.g_dev < lib.MAXDEVNUM) ∧
    (0 ≤ t1.g_dev → t1.g_dev < lib.MAXDEVNUM) := by
  obtain ⟨t0, h0, hneg⟩ := th260_close_ok lib t
  unfold th260_init at ht
  rw [h0, Res.andThen_ok] at ht
  simp only at ht
  have hrange := openFirst_dev lib lib.MAXDEVNUM 0 t0
  by_cases hd : (openFirst lib lib.MAXDEVNUM 0 t0).g_dev < 0
  · rw [if_pos hd] at ht
    injection ht with hw hs
    subst hs
    exact ⟨⟨t0, h0, rfl⟩, fun _ => hw.symm, fun hne => absurd hw.symm hne,
      fun h0' => absurd hd (by omega)⟩
  · rw [if_neg hd] at ht
    have hb := th260_init_body_dev lib b o sd so (openFirst lib lib.MAXDEVNUM 0 t0)
    rw [ht] at hb
    have hb1 : t1.g_dev = (openFirst lib lib.MAXDEVNUM 0 t0).g_dev := hb
    refine ⟨⟨t0, h0, hb1⟩, fun hlt => absurd (hb1 ▸ hlt) hd, fun _ => ?_, fun _ => ?_⟩
    · rw [hb1]
      omega
    · rw [hb1]
      omega

/-- C6, as stated, fails for the counting module: from the Closed initial
state, when device 0 opens and `TH260_Initialize` then fails, `th260_init`
throws with `g_dev = 0`, which is not the Closed state `g_dev < 0`. -/
theorem failed_init_keeps_handle :
    TH260.init.g_dev < 0 ∧
    th260_init libInitFails 1 0 1 25000 TH260.init =
      .exc "Initialize -1 (err)"
        (TH260.mk 0 0 0 "0.0" [] [.OpenDevice 0, .Initialize 0 0, .GetErrorString (-1)] "") ∧
    ¬ ((TH260.mk 0 0 0 "0.0" [] [.OpenDevice 0, .Initialize 0 0, .GetErrorString (-1)] "").g_dev
      < 0) := by
  decide

/-! ### Texts without a line break -/

theorem NoBreak_append (a b : String) (ha : NoBreak a) (hb : NoBreak b) : NoBreak (a ++ b) := by
  intro c hc
  rw [String.data_append, List.mem_append] at hc
  rcases hc with h | h
  · exact ha c h
  · exact hb c h

theorem digitChar_ne_break (k : Nat) (h : k < 10) : Nat.digitChar k ≠ Char.ofNat 10 := by
  interval_cases k <;> decide

theorem toDigitsCore_noBreak (fuel : Nat) : ∀ (n : Nat) (ds : List Char),
    (∀ c ∈ ds, c ≠ Char.ofNat 10) → ∀ c ∈ Nat.toDigitsCore 10 fuel n ds, c ≠ Char.ofNat 10 := by
  induction fuel with
  | zero => intro n ds h; simpa [Nat.toDigitsCore] using h
  | succ fuel ih =>
    intro n ds h
    have hd : ∀ c ∈ Nat.digitChar (n % 10) :: ds, c ≠ Char.ofNat 10 := by
      intro c hc
      rcases List.mem_cons.mp hc with h1 | h1
      · rw [h1]; exact digitChar_ne_break _ (Nat.mod_lt _ (by decide))
      · exact h c h1
    unfold Nat.toDigitsCore
    dsimp only
    split
    · exact hd
    · exact ih _ _ hd

theorem NoBreak_natRepr (n : Nat) : NoBreak (toString n) := by
  intro c hc
  have : (toString n).data = Nat.toDigits 10 n := rfl
  rw [this] at hc
  exact toDigitsCore_noBreak _ _ _ (by simp) c hc

theorem NoBreak_intRepr (z : Int) : NoBreak (toString z) := by
  cases z with
  | ofNat n => exact NoBreak_natRepr n
  | negSucc n =>
    have : toString (Int.negSucc n) = "-" ++ toString (n + 1) := rfl
    rw [this]
    exact NoBreak_append _ _ (by decide) (NoBreak_natRepr _)
/-! ### The messages of the exceptions -/

theorem Res.ForallExc_exc {σ : Type} (Q : String → Prop) (r : Res σ) (what : String) (s1 : σ)
    (hr : r.ForallExc Q) (h : r = .exc what s1) : Q what := by
  rw [h] at hr
  exact hr

theorem Res.ForallExc_andThen {σ : Type} (Q : String → Prop) (r : Res σ) (k : σ → Res σ)
    (hr : r.ForallExc Q) (hk : ∀ s, (k s).ForallExc Q) : (r.andThen k).ForallExc Q := by
  cases r with
  | ok s => exact hk s
  | exc w s => exact hr
  | hang => trivial

/-- The three messages a command of stage_helper.cpp can fail with. -/
theorem stage_command_exc_what (drv : Kinesis) (cmd : String) (iss : IStream) (s s1 : Stage)
    (what : String) (h : stage_command drv cmd iss s = .exc what s1) :
    what = "PCC_Open X" ∨ what = "PCC_Open Y" ∨ what = "not_open" := by
  have hopen : ∀ sx sy v, (stage_open drv sx sy v s).ForallExc
      (fun w => w = "PCC_Open X" ∨ w = "PCC_Open Y" ∨ w = "not_open") := by
    intro sx sy v
    unfold stage_open
    dsimp only
    split
    · exact Or.inl rfl
    · split
      · exact Or.inr (Or.inl rfl)
      · trivial
  have hset : ∀ vx vy, (setdac vx vy s).ForallExc
      (fun w => w = "PCC_Open X" ∨ w = "PCC_Open Y" ∨ w = "not_open") := by
    intro vx vy
    unfold setdac
    split
    · exact Or.inr (Or.inr rfl)
    · trivial
  have hmove : ∀ ix iy w h, (move_ix ix iy w h s).ForallExc
      (fun w => w = "PCC_Open X" ∨ w = "PCC_Open Y" ∨ w = "not_open") := by
    intro ix iy w h
    unfold move_ix
    split
    · exact Or.inr (Or.inr rfl)
    · exact hset _ _
  have hclose : (stage_close s).ForallExc
      (fun w => w = "PCC_Open X" ∨ w = "PCC_Open Y" ∨ w = "not_open") := by
    unfold stage_close
    split
    · trivial
    · trivial
  unfold stage_command at h
  dsimp only at h
  split at h
  · exact absurd h (by simp)
  · split at h
    · exact Res.ForallExc_exc _ _ _ _ (hopen _ _ _) (Res.thenOK_exc _ _ _ _ h)
    · split at h
      · split at h
        · exact Res.ForallExc_exc _ _ _ _ (hset _ _) (Res.thenOK_exc _ _ _ _ h)
        · exact absurd h (by simp)
      · split at h
        · split at h
          · exact Res.ForallExc_exc _ _ _ _ (hmove _ _ _ _) (Res.thenOK_exc _ _ _ _ h)
          · exact absurd h (by simp)
        · split at h
          · exact Res.ForallExc_exc _ _ _ _ hclose (Res.thenOK_exc _ _ _ _ h)
          · exact absurd h (by simp)

theorem stage_line_exc_noBreak (drv : Kinesis) (line : String) (s s1 : Stage) (what : String)
    (h : stage_line drv line s = .exc what s1) : NoBreak ("ERR " ++ what) := by
  rcases stage_command_exc_what drv _ _ s s1 what h with e | e | e <;> rw [e] <;> decide

theorem pq_throw_noBreak (lib : TH260Lib)
    (hlib : ∀ past rc, NoBreak (lib.strOut past (.GetErrorString rc)))
    (what : String) (hw : NoBreak what) (rc : Int) (s : TH260) :
    (pq_throw lib what rc s).ForallExc NoBreak := by
  show NoBreak (what ++ " " ++ toString rc ++ " (" ++ lib.strOut s.calls (.GetErrorString rc)
    ++ ")")
  exact NoBreak_append _ _ (NoBreak_append _ _ (NoBreak_append _ _ (NoBreak_append _ _
    (NoBreak_append _ _ hw (by decide)) (NoBreak_intRepr rc)) (by decide)) (hlib _ _))
    (by decide)

theorem checked_noBreak (lib : TH260Lib)
    (hlib : ∀ past rc, NoBreak (lib.strOut past (.GetErrorString rc)))
    (what : String) (hw : NoBreak what) (c : TCall) (s : TH260) (k : TH260 → Res TH260)
    (hk : ∀ s1, (k s1).ForallExc NoBreak) : (checked lib what c s k).ForallExc NoBreak := by
  unfold checked
  split
  · exact pq_throw_noBreak lib hlib what hw _ _
  · exact hk _

theorem forChannels_noBreak (lib : TH260Lib)
    (hlib : ∀ past rc, NoBreak (lib.strOut past (.GetErrorString rc)))
    (what : String) (hw : NoBreak what) (mk : Int → TCall) (n : Nat) :
    ∀ (ch : Int) (s : TH260), (forChannels lib what mk n ch s).ForallExc NoBreak := by
  induction n with
  | zero => intro ch s; trivial
  | succ n ih =>
    intro ch s
    unfold forChannels
    split
    · exact pq_throw_noBreak lib hlib what hw _ _
    · exact ih _ _

theorem pollCTC_noBreak (lib : TH260Lib)
    (hlib : ∀ past rc, NoBreak (lib.strOut past (.GetErrorString rc))) (fuel : Nat) :
    ∀ (s : TH260), (pollCTC lib fuel s).ForallExc NoBreak := by
  induction fuel with
  | zero => intro s; trivial
  | succ n ih =>
    intro s
    unfold pollCTC
    dsimp only
    split
    · exact pq_throw_noBreak lib hlib _ (by decide) _ _
    · split
      · exact ih _
      · trivial

theorem readHist_noBreak (lib : TH260Lib)
    (hlib : ∀ past rc, NoBreak (lib.strOut past (.GetErrorString rc))) (k : Nat) :
    ∀ (ch : Nat) (s : TH260), (readHist lib k ch s).ForallExc NoBreak := by
  induction k with
  | zero => intro ch s; trivial
  | succ k ih =>
    intro ch s
    unfold readHist
    dsimp only
    split
    · exact pq_throw_noBreak lib hlib _ (by decide) _ _
    · exact ih _ _

theorem th260_acquire_noBreak (lib : TH260Lib)
    (hlib : ∀ past rc, NoBreak (lib.strOut past (.GetErrorString rc))) (fuel : Nat)
    (ms : Int) (s : TH260) : (th260_acquire lib fuel ms s).ForallExc NoBreak := by
  unfold th260_acquire
  refine checked_noBreak lib hlib _ (by decide) _ _ _ (fun s1 => ?_)
  refine checked_noBreak lib hlib _ (by decide) _ _ _ (fun s2 => ?_)
  refine Res.ForallExc_andThen _ _ _ (pollCTC_noBreak lib hlib _ _) (fun s3 => ?_)
  refine checked_noBreak lib hlib _ (by decide) _ _ _ (fun s4 => ?_)
  exact readHist_noBreak lib hlib _ _ _

theorem th260_init_tail_noBreak (lib : TH260Lib)
    (hlib : ∀ past rc, NoBreak (lib.strOut past (.GetErrorString rc)))
    (b o so : Int) (s : TH260) : (th260_init_tail lib b o so s).ForallExc NoBreak := by
  unfold th260_init_tail
  refine checked_noBreak lib hlib _ (by decide) _ _ _ (fun s1 => ?_)
  refine Res.ForallExc_andThen _ _ _ (forChannels_noBreak lib hlib _ (by decide) _ _ _ _)
    (fun s2 => ?_)
  refine checked_noBreak lib hlib _ (by decide) _ _ _ (fun s3 => ?_)
  refine checked_noBreak lib hlib _ (by decide) _ _ _ (fun s4 => ?_)
  refine checked_noBreak lib hlib _ (by decide) _ _ _ (fun s5 => ?_)
  refine checked_noBreak lib hlib _ (by decide) _ _ _ (fun s6 => ?_)
  split
  · show NoBreak vectorTooLong
    decide
  · trivial

theorem th260_init_noBreak (lib : TH260Lib)
    (hlib : ∀ past rc, NoBreak (lib.strOut past (.GetErrorString rc)))
    (b o sd so : Int) (s : TH260) : (th260_init lib b o sd so s).ForallExc NoBreak := by
  unfold th260_init
  have hc : (th260_close lib s).ForallExc NoBreak := by
    unfold th260_close
    split
    · trivial
    · trivial
  refine Res.ForallExc_andThen _ _ _ hc (fun s0 => ?_)
  dsimp only
  split
  · show NoBreak "no TH260"
    decide
  · unfold th260_init_body
    refine checked_noBreak lib hlib _ (by decide) _ _ _ (fun s1 => ?_)
    refine checked_noBreak lib hlib _ (by decide) _ _ _ (fun s2 => ?_)
    refine checked_noBreak lib hlib _ (by decide) _ _ _ (fun s3 => ?_)
    refine checked_noBreak lib hlib _ (by decide) _ _ _ (fun s4 => ?_)
    split
    · refine checked_noBreak lib hlib _ (by decide) _ _ _ (fun s5 => ?_)
      exact Res.ForallExc_andThen _ _ _ (forChannels_noBreak lib hlib _ (by decide) _ _ _ _)
        (fun s6 => th260_init_tail_noBreak lib hlib b o so s6)
    · refine checked_noBreak lib hlib _ (by decide) _ _ _ (fun s5 => ?_)
      exact Res.ForallExc_andThen _ _ _ (forChannels_noBreak lib hlib _ (by decide) _ _ _ _)
        (fun s6 => th260_init_tail_noBreak lib hlib b o so s6)

theorem NoBreak_err (what : String) (h : NoBreak what) : NoBreak ("ERR " ++ what) :=
  NoBreak_append _ _ (by decide) h

theorem th260_line_exc_noBreak (lib : TH260Lib)
    (hlib : ∀ past rc, NoBreak (lib.strOut past (.GetErrorString rc)))
    (fuel : Nat) (line : String) (s s1 : TH260) (what : String)
    (h : th260_line lib fuel line s = .exc what s1) : NoBreak ("ERR " ++ what) := by
  apply NoBreak_err
  unfold th260_line th260_command at h
  dsimp only at h
  split at h
  · exact absurd h (by simp)
  · split at h
    · exact Res.ForallExc_exc NoBreak _ _ _ (th260_init_noBreak lib hlib _ _ _ _ s)
        (Res.thenOK_exc _ _ _ _ h)
    · split at h
      · exact absurd h (by simp)
      · split at h
        · have ha := th260_acquire_noBreak lib hlib fuel
            ((IStream.ofLine line).getString.1.getInt.2.getD 5000) s
          split at h
          · exact absurd h (by simp)
          · next w s2 he =>
            injection h with h1 h2
            rw [he] at ha
            rw [← h1]
            exact ha
          · exact absurd h (by simp)
        · split at h
          · exact Res.ForallExc_exc NoBreak _ _ _ (th260_init_noBreak lib hlib _ _ _ _ s)
              (Res.thenOK_exc _ _ _ _ h)
          · exact absurd h (by simp)
/-! ### From the read loop to `main` -/

theorem stage_loop_steps (drv : Kinesis) (tail : List String) : ∀ (pre : List String)
    (s s1 : Stage), stage_steps drv pre s = some s1 →
    stage_loop drv (pre ++ tail) s = stage_loop drv tail s1 := by
  intro pre
  induction pre with
  | nil =>
    intro s s1 h
    simp only [stage_steps, Option.some.injEq] at h
    rw [h]; rfl
  | cons line pre ih =>
    intro s s1 h
    rw [List.cons_append, stage_loop]
    rw [stage_steps] at h
    split
    · rw [if_pos (by assumption)] at h
      exact ih _ _ h
    · rw [if_neg (by assumption)] at h
      split at h
      · next s2 he => rw [he]; exact ih _ _ h
      · exact absurd h (by simp)

theorem th260_loop_steps (lib : TH260Lib) (fuel : Nat) (tail : List String) :
    ∀ (pre : List String) (s s1 : TH260), th260_steps lib fuel pre s = some s1 →
    th260_loop lib fuel (pre ++ tail) s = th260_loop lib fuel tail s1 := by
  intro pre
  induction pre with
  | nil =>
    intro s s1 h
    simp only [th260_steps, Option.some.injEq] at h
    rw [h]; rfl
  | cons line pre ih =>
    intro s s1 h
    rw [List.cons_append, th260_loop]
    rw [th260_steps] at h
    split
    · rw [if_pos (by assumption)] at h
      exact ih _ _ h
    · rw [if_neg (by assumption)] at h
      split at h
      · next s2 he => rw [he]; exact ih _ _ h
      · exact absurd h (by simp)

/-- When a command of stage_helper.cpp throws, `main` prints the `ERR` line,
runs `stage_close`, and returns with the stage Closed and the later lines
unread. -/
theorem stage_main_exc (drv : Kinesis) (pre : List String) (line : String)
    (rest : List String) (s s1 : Stage) (what : String)
    (hp : stage_steps drv pre (Stage.init.print "OK ready\n") = some s) (hne : line ≠ "")
    (h : stage_line drv line s = .exc what s1) :
    ∃ s2, stage_close (s1.print ("ERR " ++ what ++ "\n")) = .ok s2 ∧ s2.g_open = false ∧
      s2.out = s.out ++ ("ERR " ++ what ++ "\n") ∧
      stage_main drv (pre ++ line :: rest) = .done s2 rest := by
  obtain ⟨s2, h1, h2⟩ := stage_close_ok (s1.print ("ERR " ++ what ++ "\n"))
  have ho := stage_close_out (s1.print ("ERR " ++ what ++ "\n"))
  rw [h1] at ho
  refine ⟨s2, h1, h2, ?_, ?_⟩
  · have : s2.out = (s1.print ("ERR " ++ what ++ "\n")).out := ho
    rw [this]
    show s1.out ++ _ = _
    rw [stage_line_exc_out drv line s s1 what h]
  · rw [stage_main, stage_loop_steps drv _ pre _ s hp, stage_loop_exc drv line rest s s1 what hne h]
    simp only [h1]

theorem th260_close_out (lib : TH260Lib) (s : TH260) :
    (th260_close lib s).Forall (fun t => t.out = s.out) := by
  unfold th260_close
  split
  · exact closeAll_out _ _ s
  · rfl

/-- When a command of th260_helper.cpp throws, `main` prints the `ERR` line,
runs `th260_close`, and returns with the module Closed and the later lines
unread. -/
theorem th260_main_exc (lib : TH260Lib) (fuel : Nat) (pre : List String) (line : String)
    (rest : List String) (s s1 : TH260) (what : String)
    (hp : th260_steps lib fuel pre (TH260.init.print "OK ready\n") = some s) (hne : line ≠ "")
    (h : th260_line lib fuel line s = .exc what s1) :
    ∃ s2, th260_close lib (s1.print ("ERR " ++ what ++ "\n")) = .ok s2 ∧ s2.g_dev < 0 ∧
      s2.out = s.out ++ ("ERR " ++ what ++ "\n") ∧
      th260_main lib fuel (pre ++ line :: rest) = .done s2 rest := by
  obtain ⟨s2, h1, h2⟩ := th260_close_ok lib (s1.print ("ERR " ++ what ++ "\n"))
  have ho := th260_close_out lib (s1.print ("ERR " ++ what ++ "\n"))
  rw [h1] at ho
  refine ⟨s2, h1, h2, ?_, ?_⟩
  · have : s2.out = (s1.print ("ERR " ++ what ++ "\n")).out := ho
    rw [this]
    show s1.out ++ _ = _
    rw [th260_line_exc_out lib fuel line s s1 what h]
  · rw [th260_main, th260_loop_steps lib fuel _ pre _ s hp,
      th260_loop_exc lib fuel line rest s s1 what hne h]
    simp only [h1]
theorem th260_line_init (lib : TH260Lib) (fuel : Nat) (line : String) (t : TH260)
    (hc : commandOf line = "init") :
    th260_line lib fuel line t =
      (th260_init lib (initArgs line).1 (initArgs line).2.1 (initArgs line).2.2.1
        (initArgs line).2.2.2 t).thenOK TH260.print := by
  simp [th260_line, th260_command, hc, initArgs]

theorem th260_line_reset (lib : TH260Lib) (fuel : Nat) (line : String) (t : TH260)
    (hc : commandOf line = "reset") :
    th260_line lib fuel line t = (th260_init lib 1 0 1 25000 t).thenOK TH260.print := by
  simp [th260_line, th260_command, hc]

theorem stage_line_open (drv : Kinesis) (line : String) (s : Stage)
    (hc : commandOf line = "open") :
    stage_line drv line s =
      (stage_open drv (openArgs line).1 (openArgs line).2.1 (openArgs line).2.2 s).thenOK
        Stage.print := by
  simp [stage_line, stage_command, hc, openArgs]

theorem th260_init_after_close (lib : TH260Lib) (b o sd so : Int) (t1 t2 : TH260)
    (h : th260_close lib t1 = .ok t2) (hneg : t2.g_dev < 0) :
    th260_init lib b o sd so t1 = th260_init lib b o sd so t2 := by
  unfold th260_init
  rw [h, th260_close_closed lib t2 hneg]
/-- C6, amended. A `stage_open` that fails from the Closed state leaves
`g_open` false.  A `th260_init` that fails leaves `g_dev` as the device search
left it after the initial close: negative only when no device opened, in which
case the error is `no TH260`; after any other failure `g_dev` is the index of
the device that was opened (`0 ≤ g_dev < MAXDEVNUM`), so the module is not
Closed.  On that state `th260_close` succeeds and leaves it Closed; a later
`th260_init` runs it first and so does exactly what it does from that Closed
state; and `main`, whose read loop the failure of an `open`, `init` or `reset`
line ends, runs the close on its way out and returns with the controller
Closed. -/
theorem failed_open_state (drv : Kinesis) (lib : TH260Lib) (sx sy : String)
    (v b o sd so : Int) (s s1 : Stage) (t t1 : TH260) (what whatT : String)
    (hc : s.g_open = false) (hs : stage_open drv sx sy v s = .exc what s1)
    (ht : th260_init lib b o sd so t = .exc whatT t1) :
    s1.g_open = false ∧
    (∃ t0, th260_close lib t = .ok t0 ∧
      t1.g_dev = (openFirst lib lib.MAXDEVNUM 0 t0).g_dev) ∧
    (t1.g_dev < 0 → whatT = "no TH260") ∧
    (whatT ≠ "no TH260" → 0 ≤ t1.g_dev ∧ t1.g_dev < lib.MAXDEVNUM) ∧
    (0 ≤ t1.g_dev → t1.g_dev < lib.MAXDEVNUM) ∧
    (∃ t2, th260_close lib t1 = .ok t2 ∧ t2.g_dev < 0 ∧
      ∀ b2 o2 sd2 so2 : Int,
        th260_init lib b2 o2 sd2 so2 t1 = th260_init lib b2 o2 sd2 so2 t2) ∧
    (∀ (pre : List String) (line : String) (rest : List String),
      stage_steps drv pre (Stage.init.print "OK ready\n") = some s → line ≠ "" →
      commandOf line = "open" → openArgs line = (sx, sy, v) →
      ∃ s2, stage_close (s1.print ("ERR " ++ what ++ "\n")) = .ok s2 ∧ s2.g_open = false ∧
        stage_main drv (pre ++ line :: rest) = .done s2 rest) ∧
    (∀ (fuel : Nat) (pre : List String) (line : String) (rest : List String),
      th260_steps lib fuel pre (TH260.init.print "OK ready\n") = some t → line ≠ "" →
      (commandOf line = "init" ∧ initArgs line = (b, o, sd, so)) ∨
        (commandOf line = "reset" ∧ (b, o, sd, so) = (1, 0, 1, 25000)) →
      ∃ t3, th260_close lib (t1.print ("ERR " ++ whatT ++ "\n")) = .ok t3 ∧ t3.g_dev < 0 ∧
        th260_main lib fuel (pre ++ line :: rest) = .done t3 rest) := by
  refine ⟨stage_open_exc_closed drv sx sy v s s1 what hc hs,
    (th260_init_exc lib b o sd so t t1 whatT ht).1,
    (th260_init_exc lib b o sd so t t1 whatT ht).2.1,
    (th260_init_exc lib b o sd so t t1 whatT ht).2.2.1,
    (th260_init_exc lib b o sd so t t1 whatT ht).2.2.2, ?_, ?_, ?_⟩
  · obtain ⟨t2, h1, h2⟩ := th260_close_ok lib t1
    exact ⟨t2, h1, h2, fun b2 o2 sd2 so2 => th260_init_after_close lib b2 o2 sd2 so2 t1 t2 h1 h2⟩
  · intro pre line rest hp hne hcmd hargs
    have hl : stage_line drv line s = .exc what s1 := by
      rw [stage_line_open drv line s hcmd, hargs]
      show (stage_open drv sx sy v s).thenOK Stage.print = _
      rw [hs]; rfl
    obtain ⟨s2, h1, h2, _, h4⟩ := stage_main_exc drv pre line rest s s1 what hp hne hl
    exact ⟨s2, h1, h2, h4⟩
  · intro fuel pre line rest hp hne hcmd
    have hl : th260_line lib fuel line t = .exc whatT t1 := by
      rcases hcmd with ⟨hcmd, hargs⟩ | ⟨hcmd, hargs⟩
      · rw [th260_line_init lib fuel line t hcmd, hargs]
        show (th260_init lib b o sd so t).thenOK TH260.print = _
        rw [ht]; rfl
      · rw [th260_line_reset lib fuel line t hcmd]
        simp only [Prod.mk.injEq] at hargs
        obtain ⟨e1, e2, e3, e4⟩ := hargs
        subst e1 e2 e3 e4
        rw [ht]; rfl
    obtain ⟨t3, h1, h2, _, h4⟩ := th260_main_exc lib fuel pre line rest t t1 whatT hp hne hl
    exact ⟨t3, h1, h2, h4⟩

/-- Instance of `failed_open_state`: `open AX AY` when `AY` does not open, and
`init` when `TH260_Initialize` fails, each as the first line of a session. -/
theorem failed_open_state_witness :
    (Stage.mk "AX" "AY" false [.TLI_BuildDeviceList, .PCC_Open "AX", .PCC_Open "AY"]
        "OK ready\n").g_open = false ∧
    ("Initialize -1 (err)" ≠ "no TH260" →
      0 ≤ (TH260.mk 0 0 0 "0.0" [] [.OpenDevice 0, .Initialize 0 0, .GetErrorString (-1)]
        "OK ready\n").g_dev
      ∧ (TH260.mk 0 0 0 "0.0" [] [.OpenDevice 0, .Initialize 0 0, .GetErrorString (-1)]
        "OK ready\n").g_dev < libInitFails.MAXDEVNUM) ∧
    (∃ s2, stage_close (Stage.print
          (Stage.mk "AX" "AY" false [.TLI_BuildDeviceList, .PCC_Open "AX", .PCC_Open "AY"]
            "OK ready\n") ("ERR " ++ "PCC_Open Y" ++ "\n")) = .ok s2 ∧ s2.g_open = false ∧
        stage_main kinesisYFails ([] ++ "open AX AY" :: ["open AX AZ"]) =
          .done s2 ["open AX AZ"]) ∧
    (∃ t3, th260_close libInitFails (TH260.print
          (TH260.mk 0 0 0 "0.0" [] [.OpenDevice 0, .Initialize 0 0, .GetErrorString (-1)]
            "OK ready\n") ("ERR " ++ "Initialize -1 (err)" ++ "\n")) = .ok t3 ∧ t3.g_dev < 0 ∧
        th260_main libInitFails 1 ([] ++ "init" :: ["info"]) = .done t3 ["info"]) :=
  have h := failed_open_state kinesisYFails libInitFails "AX" "AY" 750 1 0 1 25000
    (Stage.init.print "OK ready\n")
    (Stage.mk "AX" "AY" false [.TLI_BuildDeviceList, .PCC_Open "AX", .PCC_Open "AY"]
      "OK ready\n")
    (TH260.init.print "OK ready\n")
    (TH260.mk 0 0 0 "0.0" [] [.OpenDevice 0, .Initialize 0 0, .GetErrorString (-1)]
      "OK ready\n")
    "PCC_Open Y" "Initialize -1 (err)" rfl (by decide) (by decide)
  ⟨h.1, h.2.2.2.1,
    h.2.2.2.2.2.2.1 [] "open AX AY" ["open AX AZ"] rfl (by decide) (by decide) (by decide),
    h.2.2.2.2.2.2.2 1 [] "init" ["info"] rfl (by decide) (Or.inl ⟨by decide, by decide⟩)⟩
/-! ### The counting module: acquisition -/

theorem HoldsBuf_call (n m : Int) (o : String) :
    ∀ (s : TH260) (c : TCall), HoldsBuf n m o s → HoldsBuf n m o (s.call c) :=
  fun _ _ h => h

theorem HoldsBuf_setRow (n m : Int) (o : String) (s : TH260) (ch : Nat) (row : List Nat)
    (hrow : row.length = (s.g_hist.getD ch []).length) (h : HoldsBuf n m o s) :
    HoldsBuf n m o { s with g_hist := s.g_hist.set ch row } := by
  obtain ⟨h1, h2, h3, h4, h5⟩ := h
  refine ⟨h1, h2, h3, ?_, ?_⟩
  · show (s.g_hist.set ch row).length = _
    rw [List.length_set]; exact h4
  · intro r hr
    by_cases hlt : ch < s.g_hist.length
    · rcases List.mem_or_eq_of_mem_set hr with hm | he
      · exact h5 r hm
      · rw [he, hrow, List.getD_eq_getElem _ _ hlt]
        exact h5 _ (List.getElem_mem _)
    · have e : s.g_hist.set ch row = s.g_hist := List.set_eq_of_length_le (by omega)
      have hr1 : r ∈ s.g_hist.set ch row := hr
      rw [e] at hr1
      exact h5 r hr1

theorem readHist_buf (lib : TH260Lib) (n m : Int) (o : String) (k : Nat) :
    ∀ (ch : Nat) (s : TH260), HoldsBuf n m o s → (readHist lib k ch s).Forall (HoldsBuf n m o) := by
  induction k with
  | zero => intro ch s h; exact h
  | succ k ih =>
    intro ch s h
    have hs := HoldsBuf_setRow n m o s ch
      ((List.range (s.g_hist.getD ch []).length).map fun j =>
        lib.histOut s.calls (TCall.GetHistogram s.g_dev ch 1) j % 4294967296)
      (by rw [List.length_map, List.length_range]) h
    unfold readHist
    simp only
    split
    · exact pq_throw_forall _ (HoldsBuf_call n m o) lib _ _ _ (HoldsBuf_call n m o _ _ hs)
    · exact ih _ _ (HoldsBuf_call n m o _ _ hs)

theorem th260_acquire_buf (lib : TH260Lib) (fuel : Nat) (ms : Int) (n m : Int) (o : String)
    (s : TH260) (h : HoldsBuf n m o s) :
    (th260_acquire lib fuel ms s).Forall (HoldsBuf n m o) := by
  unfold th260_acquire
  refine checked_forall _ (HoldsBuf_call n m o) lib _ _ _ _ h (fun s1 h1 => ?_)
  refine checked_forall _ (HoldsBuf_call n m o) lib _ _ _ _ h1 (fun s2 h2 => ?_)
  refine Res.Forall_andThen _ _ _ (pollCTC_forall _ (HoldsBuf_call n m o) lib _ _ h2)
    (fun s3 h3 => ?_)
  refine checked_forall _ (HoldsBuf_call n m o) lib _ _ _ _ h3 (fun s4 h4 => ?_)
  exact readHist_buf lib n m o _ _ _ h4
theorem flatMap_range_getD {α β : Type} (d : α) (f : α → List β) (l : List α) :
    (List.range l.length).flatMap (fun j => f (l.getD j d)) = l.flatMap f := by
  induction l with
  | nil => rfl
  | cons a l ih =>
    rw [List.length_cons, List.range_succ_eq_map, List.flatMap_cons, List.flatMap_map,
      List.flatMap_cons]
    simp only [List.getD_cons_zero, Function.comp, List.getD_cons_succ]
    rw [ih]

theorem flatMap_congr_mem {α β : Type} (f g : α → List β) (l : List α)
    (h : ∀ x ∈ l, f x = g x) : l.flatMap f = l.flatMap g := by
  induction l with
  | nil => rfl
  | cons a l ih =>
    rw [List.flatMap_cons, List.flatMap_cons, h a (List.mem_cons_self _ _),
      ih (fun x hx => h x (List.mem_cons_of_mem _ hx))]

theorem flatMap_length_const {α β : Type} (f : α → List β) (k : Nat) (l : List α)
    (h : ∀ x ∈ l, (f x).length = k) : (l.flatMap f).length = l.length * k := by
  induction l with
  | nil => simp
  | cons a l ih =>
    rw [List.flatMap_cons, List.length_append, h a (List.mem_cons_self _ _),
      ih (fun x hx => h x (List.mem_cons_of_mem _ hx)), List.length_cons]
    rw [Nat.add_mul, Nat.one_mul, Nat.add_comm]

theorem rawBytes_eq_payload (n m : Int) (o : String) (s : TH260) (h : HoldsBuf n m o s) :
    rawBytes s = payloadOf s.g_hist := by
  obtain ⟨h1, h2, _, h4, h5⟩ := h
  unfold rawBytes payloadOf
  rw [h1, ← h4, flatMap_range_getD [] (fun row =>
    (List.range s.g_len.toNat).flatMap fun j => leBytes (row.getD j 0)) s.g_hist]
  apply flatMap_congr_mem
  intro row hrow
  show ((List.range s.g_len.toNat).flatMap fun j => leBytes (row.getD j 0)) = _
  rw [h2, ← h5 row hrow]
  exact flatMap_range_getD 0 leBytes row

theorem payload_length (n m : Int) (o : String) (s : TH260) (h : HoldsBuf n m o s) :
    (payloadOf s.g_hist).length = n.toNat * m.toNat * 4 := by
  obtain ⟨_, _, _, h4, h5⟩ := h
  unfold payloadOf
  rw [flatMap_length_const _ (m.toNat * 4) s.g_hist, h4, Nat.mul_assoc]
  intro row hrow
  rw [flatMap_length_const leBytes 4 row (fun _ _ => rfl), h5 row hrow]

theorem rawSize_eq (n m : Int) (o : String) (s : TH260) (h : HoldsBuf n m o s)
    (hn0 : 0 ≤ n) (hn : n ≤ 2147483647) (hm0 : 0 ≤ m) (hm : m ≤ 2147483647) :
    rawSize s = n.toNat * m.toNat * 4 := by
  obtain ⟨h1, h2, _, _, _⟩ := h
  unfold rawSize toSize
  rw [h1, h2]
  have e1 : (n % 18446744073709551616).toNat = n.toNat := by omega
  have e2 : (m % 18446744073709551616).toNat = m.toNat := by omega
  rw [e1, e2]
  have b1 : n.toNat ≤ 2147483647 := by omega
  have b2 : m.toNat ≤ 2147483647 := by omega
  have b3 : n.toNat * m.toNat ≤ 2147483647 * 2147483647 := Nat.mul_le_mul b1 b2
  apply Nat.mod_eq_of_lt
  omega
theorem th260_command_acquire (lib : TH260Lib) (fuel : Nat) (iss : IStream) (s : TH260) :
    th260_command lib fuel "acquire" iss s =
      match th260_acquire lib fuel (iss.getInt.2.getD 5000) s with
      | .ok s =>
        .next (s.print ("OK HIST CH=" ++ toString s.g_ch ++ " LEN=" ++ toString s.g_len
          ++ " BYTES=" ++ toString (rawSize s) ++ "\n" ++ b64 (rawBytes s) ++ "\n"))
      | .exc what s => .exc what s
      | .hang => .hang := by
  simp [th260_command]

theorem b64_eq_groups (p : List Byte) : b64 p = String.mk (encGroups p) := by
  have h := b64_data p
  cases hb : b64 p with
  | mk d => rw [hb] at h; simp only at h; rw [h]

/-- C10. When the buffer holds `g_ch = n` rows of `g_len = m` counters (as
after every successful `init`) and an `acquire` line is answered successfully,
what is written is exactly the status line `OK HIST CH=n LEN=m BYTES=n*m*4`
followed by one line holding `b64` of the channel buffers in channel order, 4
bytes per counter; that payload has `n*m*4` bytes, decodes back to them, and
its encoding contains no line break.  The buffer keeps its shape. -/
theorem acquire_response (lib : TH260Lib) (fuel : Nat) (line : String) (s s1 : TH260)
    (hb : BufOK s) (hc : commandOf line = "acquire")
    (hr : th260_line lib fuel line s = .next s1) :
    BufOK s1 ∧ s1.g_ch = s.g_ch ∧ s1.g_len = s.g_len ∧
    s1.out = s.out ++ ("OK HIST CH=" ++ toString s.g_ch ++ " LEN=" ++ toString s.g_len
      ++ " BYTES=" ++ toString (s.g_ch.toNat * s.g_len.toNat * 4) ++ "\n"
      ++ b64 (payloadOf s1.g_hist) ++ "\n") ∧
    (payloadOf s1.g_hist).length = s.g_ch.toNat * s.g_len.toNat * 4 ∧
    b64decode (b64 (payloadOf s1.g_hist)) = some (payloadOf s1.g_hist) ∧
    (∀ c ∈ (b64 (payloadOf s1.g_hist)).data, c ≠ Char.ofNat 10) := by
  obtain ⟨b1, b2, b3, b4, b5, b6⟩ := hb
  rw [th260_line, hc, th260_command_acquire] at hr
  have hP := th260_acquire_buf lib fuel ((IStream.ofLine line).getString.1.getInt.2.getD 5000)
    s.g_ch s.g_len s.out s ⟨rfl, rfl, rfl, b5, b6⟩
  cases hacq : th260_acquire lib fuel ((IStream.ofLine line).getString.1.getInt.2.getD 5000) s with
  | ok s2 =>
    rw [hacq] at hr hP
    simp only at hr
    have hP2 : HoldsBuf s.g_ch s.g_len s.out s2 := hP
    have e1 := rawBytes_eq_payload _ _ _ s2 hP2
    have e2 := rawSize_eq _ _ _ s2 hP2 b1 b2 b3 b4
    have e3 := payload_length _ _ _ s2 hP2
    obtain ⟨h1, h2, h3, h4, h5⟩ := hP2
    injection hr with hr
    subst hr
    rw [e1, e2, h1, h2]
    refine ⟨⟨h1 ▸ b1, h1 ▸ b2, h2 ▸ b3, h2 ▸ b4, h1 ▸ h4, h2 ▸ h5⟩, h1, h2, ?_, e3,
      b64decode_b64 _, fun c hc => (b64_no_break _ c hc).2⟩
    show s2.out ++ _ = _
    rw [h3]
    rfl
  | exc w s2 => rw [hacq] at hr; exact absurd hr (by simp)
  | hang => rw [hacq] at hr; exact absurd hr (by simp)
theorem th260Ready_acquire : th260_acquire libOK 5 100 th260Ready = .ok th260Acquired := by
  decide

theorem th260Ready_line :
    th260_line libOK 5 "acquire 100" th260Ready =
      .next (th260Acquired.print ("OK HIST CH=" ++ toString th260Acquired.g_ch ++ " LEN="
        ++ toString th260Acquired.g_len ++ " BYTES=" ++ toString (rawSize th260Acquired) ++ "\n"
        ++ b64 (rawBytes th260Acquired) ++ "\n")) := by
  have hc : commandOf "acquire 100" = "acquire" := by decide
  have hi : (IStream.ofLine "acquire 100").getString.1.getInt.2.getD 5000 = 100 := by decide
  rw [th260_line, hc, th260_command_acquire, hi, th260Ready_acquire]

theorem th260Ready_payload :
    b64 (payloadOf th260Acquired.g_hist) = "AAAAAAEAAAACAAAA6AMAAOkDAADqAwAA" := by
  rw [b64_eq_groups]
  decide

/-- Instance of `acquire_response`: `acquire 100` on the healthy library, with
2 channels of 3 bins, is answered `OK HIST CH=2 LEN=3 BYTES=24` and a payload
of 24 bytes. -/
theorem acquire_response_witness :
    BufOK th260Ready ∧ commandOf "acquire 100" = "acquire" ∧
    (payloadOf th260Acquired.g_hist).length = 24 ∧
    (th260Acquired.print ("OK HIST CH=" ++ toString th260Acquired.g_ch ++ " LEN="
        ++ toString th260Acquired.g_len ++ " BYTES=" ++ toString (rawSize th260Acquired) ++ "\n"
        ++ b64 (rawBytes th260Acquired) ++ "\n")).out =
      "" ++ ("OK HIST CH=" ++ "2" ++ " LEN=" ++ "3" ++ " BYTES=" ++ "24" ++ "\n"
        ++ b64 (payloadOf th260Acquired.g_hist) ++ "\n") :=
  have hb : BufOK th260Ready := by unfold BufOK; decide
  have h := acquire_response libOK 5 "acquire 100" th260Ready _ hb (by decide) th260Ready_line
  ⟨hb, by decide, h.2.2.2.2.1, h.2.2.2.1⟩
/-! ### The poll allowance does not change an answer -/

theorem pollCTC_fuel (lib : TH260Lib) (k : Nat) : ∀ (f : Nat) (s : TH260) (r : Res TH260),
    pollCTC lib f s = r → r ≠ .hang → pollCTC lib (f + k) s = r := by
  intro f
  induction f with
  | zero => intro s r h hr; rw [pollCTC] at h; exact absurd h.symm hr
  | succ f ih =>
    intro s r h hr
    rw [Nat.add_right_comm]
    unfold pollCTC at h ⊢
    dsimp only at h ⊢
    split
    · rw [if_pos (by assumption)] at h; exact h
    · rw [if_neg (by assumption)] at h
      split
      · rw [if_pos (by assumption)] at h
        exact ih _ _ h hr
      · rw [if_neg (by assumption)] at h; exact h

theorem checked_fuel (lib : TH260Lib) (what : String) (c : TCall) (s : TH260)
    (k k2 : TH260 → Res TH260)
    (hk : ∀ s1 r, k s1 = r → r ≠ .hang → k2 s1 = r) :
    ∀ r, checked lib what c s k = r → r ≠ .hang → checked lib what c s k2 = r := by
  intro r h hr
  unfold checked at h ⊢
  split
  · rw [if_pos (by assumption)] at h; exact h
  · rw [if_neg (by assumption)] at h; exact hk _ _ h hr

theorem andThen_fuel (r0 r2 : Res TH260) (k : TH260 → Res TH260)
    (h0 : ∀ r, r0 = r → r ≠ .hang → r2 = r) :
    ∀ r, r0.andThen k = r → r ≠ .hang → r2.andThen k = r := by
  intro r h hr
  cases hp : r0 with
  | ok s3 => rw [hp] at h; rw [h0 _ hp (by simp)]; exact h
  | exc w s3 => rw [hp] at h; rw [h0 _ hp (by simp)]; exact h
  | hang => rw [hp] at h; exact absurd h.symm hr

/-- An `acquire` that returns or throws within `f` polls does the same when
more polls are allowed: the allowance only bounds the model, not the result. -/
theorem th260_acquire_fuel (lib : TH260Lib) (f k : Nat) (ms : Int) (s : TH260) (r : Res TH260)
    (h : th260_acquire lib f ms s = r) (hr : r ≠ .hang) :
    th260_acquire lib (f + k) ms s = r := by
  unfold th260_acquire at h ⊢
  refine checked_fuel lib _ _ _ _ _ (fun s1 r1 h1 hr1 => ?_) r h hr
  refine checked_fuel lib _ _ _ _ _ (fun s2 r2 h2 hr2 => ?_) r1 h1 hr1
  exact andThen_fuel _ _ _ (fun r3 h3 hr3 => pollCTC_fuel lib k f _ _ h3 hr3) r2 h2 hr2
/-! ### Whole sessions -/

/-- The session `open AX AY`, `setdac 16000 -16000`, `disable`, `disable` on a
healthy stage: every command is answered `OK`. -/
theorem stage_session_open_set_disable :
    stage_main kinesisOK ["open AX AY", "setdac 16000 -16000", "disable", "disable"] =
      .done { SX := "AX", SY := "AY", g_open := false,
              calls := [.TLI_BuildDeviceList, .PCC_Open "AX", .PCC_Open "AY",
                .PCC_StartPolling "AX" 200, .PCC_StartPolling "AY" 200,
                .PCC_Enable "AX", .PCC_Enable "AY",
                .PCC_SetMaxOutputVoltage "AX" 750, .PCC_SetMaxOutputVoltage "AY" 750,
                .PCC_SetOutputVoltage "AX" 16000, .PCC_SetOutputVoltage "AY" (-16000),
                .PCC_StopPolling "AX", .PCC_StopPolling "AY",
                .PCC_Disable "AX", .PCC_Disable "AY", .PCC_Close "AX", .PCC_Close "AY"],
              out := "OK ready\nOK\nOK\nOK\nOK\n" } [] := by
  decide

/-- An empty line gets no response, an unknown command gets `ERR unknown_cmd`
and the loop goes on; `quit` ends it and leaves the rest unread. -/
theorem stage_session_blank_unknown_quit :
    stage_main kinesisOK ["", "foo", "quit", "disable"] =
      .done { Stage.init with out := "OK ready\nERR unknown_cmd\nOK bye\n" } ["disable"] := by
  decide

/-- The session `init`, `info` on the healthy library reports 2 channels of 3
bins, and the final close closes all `MAXDEVNUM` devices. -/
theorem th260_session_init_info :
    th260_main libOK 5 ["init", "info"] =
      .done { g_dev := -1, g_ch := 2, g_len := 3, g_res := "25.0",
              g_hist := [[0, 0, 0], [0, 0, 0]],
              calls := [.OpenDevice 0, .OpenDevice 1, .Initialize 1 0, .GetHardwareInfo 1,
                .GetNumOfInputChannels 1, .SetSyncDiv 1 1, .SetSyncCFD 1 (-100) (-10),
                .SetInputCFD 1 0 (-100) (-10), .SetInputCFD 1 1 (-100) (-10),
                .SetSyncChannelOffset 1 25000, .SetInputChannelOffset 1 0 0,
                .SetInputChannelOffset 1 1 0, .SetHistoLen 1 5, .SetBinning 1 1,
                .SetOffset 1 0, .GetResolution 1, .Sleep 150,
                .CloseDevice 0, .CloseDevice 1, .CloseDevice 2, .CloseDevice 3],
              out := "OK ready\nOK\nOK RES=25.0 CH=2 LEN=3\n" } [] := by
  decide

end SpectralFLIM
